import Mathlib

/-!
# Verification of the winjoportal incremental curation pipeline

Shallow embedding of the core of `services/analytics/scripts`:

* `common.py` — `parse_report_month` (regex search `20\d{2}-\d{2}` over the
  file name, leftmost match);
* `ingest_all_months.py` — state-store helpers (`load_state`, `save_state`,
  `normalize_state_path_key`), `discover_input_files` (dedup by report month,
  latest mtime wins), and the orchestration loop of `main`;
* `build_curated_sales_monthly.py` — `discover_raw_partitions`,
  curated state helpers, and the loop of `run_curated_build`.

File contents are modelled as `String`s; the SHA-256 fingerprinter is an
abstract parameter `hash : String → String` applied to an artifact's content
(the scripts' `file_sha256` reads the file's bytes in streaming chunks and
hashes them; the claims depend only on the hash being a function of content).
Filesystem existence checks are an abstract `String → Bool` predicate over
paths.  Fallible transforms return `Except String`.
-/

namespace Winjo

/-! ## Python-dict style association lists

`dict.get` / `dict.__setitem__` on string keys: updating an existing key keeps
its position, a fresh key is appended at the end. -/

def alGet {α : Type} : List (String × α) → String → Option α
  | [], _ => none
  | (k2, v) :: rest, k => if k2 = k then some v else alGet rest k

def alSet {α : Type} : List (String × α) → String → α → List (String × α)
  | [], k, v => [(k, v)]
  | (k2, v2) :: rest, k, v =>
      if k2 = k then (k2, v) :: rest else (k2, v2) :: alSet rest k v

theorem alGet_alSet_self {α : Type} (l : List (String × α)) (k : String) (v : α) :
    alGet (alSet l k v) k = some v := by
  induction l with
  | nil => simp [alGet, alSet]
  | cons hd tl ih =>
      obtain ⟨k2, v2⟩ := hd
      by_cases h : k2 = k
      · simp [alGet, alSet, h]
      · simp [alGet, alSet, h, ih]

theorem alGet_alSet_ne {α : Type} (l : List (String × α)) (k k2 : String) (v : α)
    (h : k ≠ k2) : alGet (alSet l k v) k2 = alGet l k2 := by
  induction l with
  | nil => simp [alGet, alSet, h]
  | cons hd tl ih =>
      obtain ⟨k3, v3⟩ := hd
      by_cases h3 : k3 = k
      · subst h3
        simp [alGet, alSet, h]
      · simp only [alSet, if_neg h3, alGet]
        by_cases h4 : k3 = k2 <;> simp [h4, ih]

theorem alSet_keys {α : Type} (l : List (String × α)) (k : String) (v : α) :
    (alSet l k v).map Prod.fst = l.map Prod.fst ∨
      (alSet l k v).map Prod.fst = l.map Prod.fst ++ [k] := by
  induction l with
  | nil => simp [alSet]
  | cons hd tl ih =>
      obtain ⟨k2, v2⟩ := hd
      by_cases h : k2 = k
      · simp [alSet, h]
      · rcases ih with ih | ih <;> simp [alSet, h, ih]

theorem alSet_keys_nodup {α : Type} (l : List (String × α)) (k : String) (v : α)
    (h : (l.map Prod.fst).Nodup) : ((alSet l k v).map Prod.fst).Nodup := by
  induction l with
  | nil => simp [alSet]
  | cons hd tl ih =>
      obtain ⟨k2, v2⟩ := hd
      simp only [List.map_cons, List.nodup_cons] at h
      by_cases hk : k2 = k
      · simp only [alSet, if_pos hk, List.map_cons, List.nodup_cons]
        exact h
      · simp only [alSet, if_neg hk, List.map_cons, List.nodup_cons]
        refine ⟨?_, ih h.2⟩
        intro hmem
        rcases alSet_keys tl k v with heq | heq
        · rw [heq] at hmem
          exact h.1 hmem
        · rw [heq] at hmem
          rcases List.mem_append.1 hmem with hmem | hmem
          · exact h.1 hmem
          · simp at hmem
            exact hk hmem

/-! ## String primitives

Python's string operations, modelled on the character list underlying a Lean
`String` (Python compares, slices and case-maps strings by code point):
`strLe` is `<=` (lexicographic by code point, as used by `sorted`),
`lowerStr` is `str.lower` restricted to its ASCII action, `hasSuffixStr` and
`hasPrefixStr` are `str.endswith` / `str.startswith`, `strTake` / `strDrop`
are slicing. -/

def leChars : List Char → List Char → Bool
  | [], _ => true
  | _ :: _, [] => false
  | a :: as, b :: bs => if a < b then true else if b < a then false else leChars as bs

def strLe (a b : String) : Bool := leChars a.data b.data

def insertSorted {α : Type} (le : α → α → Bool) (a : α) : List α → List α
  | [] => [a]
  | b :: l => if le a b then a :: b :: l else b :: insertSorted le a l

/-- Insertion sort with a `Bool` comparator (`sorted` is a stable sort; so is
this one). -/
def sortBy {α : Type} (le : α → α → Bool) : List α → List α
  | [] => []
  | a :: l => insertSorted le a (sortBy le l)

def lowerStr (s : String) : String := ⟨s.data.map Char.toLower⟩

def strTake (s : String) (n : Nat) : String := ⟨s.data.take n⟩

def strDrop (s : String) (n : Nat) : String := ⟨s.data.drop n⟩

def hasSuffixStr (s suf : String) : Bool :=
  s.data.drop (s.data.length - suf.data.length) == suf.data

def hasPrefixStr (s p : String) : Bool := s.data.take p.data.length == p.data

/-! ## `common.parse_report_month`

```python
def parse_report_month(path: Path) -> str:
    match = re.search(r"(20\d{2}-\d{2})", path.name)
    if match:
        return match.group(1)
    raise ValueError(f"Could not parse report month from file name: {path.name}")
```

`re.search` returns the leftmost substring matching the pattern: the literal
characters `2`, `0`, two digits, a hyphen, and two digits.  `findMonthToken`
scans start positions left to right. -/

def monthTokenAt : List Char → Bool
  | c1 :: c2 :: a :: b :: c5 :: c :: d :: _ =>
      c1 == '2' && c2 == '0' && a.isDigit && b.isDigit && c5 == '-' &&
        c.isDigit && d.isDigit
  | _ => false

def findMonthToken : List Char → Option (List Char)
  | [] => none
  | c :: cs => if monthTokenAt (c :: cs) then some ((c :: cs).take 7) else findMonthToken cs

def parse_report_month (name : String) : Except String String :=
  match findMonthToken name.data with
  | some token => .ok (String.mk token)
  | none => .error ("Could not parse report month from file name: " ++ name)

/-! ## `ingest_all_months.discover_input_files`

```python
for path in sorted(input_dir.glob("*.xlsx")): ...
```

A source directory entry: file name (distinct per directory), POSIX mtime, and
the file's bytes.  Paths are directory-relative, so the lexicographic sort of
`glob` results is the sort on names. -/

structure SrcFile where
  name : String
  mtime : Int
  content : String
  deriving Repr, DecidableEq

structure Candidate where
  path : String
  file_name : String
  report_month : String
  mtime : Int
  content : String
  deriving Repr, DecidableEq

structure Rejection where
  file : String
  reason : String
  deriving Repr, DecidableEq

/-- `sorted(input_dir.glob("*.xlsx"))`: the `.xlsx` entries in lexicographic
order of their (relative) paths. -/
def scanOrder (files : List SrcFile) : List SrcFile :=
  sortBy (fun a b => strLe a.name b.name)
    (files.filter (fun f => hasSuffixStr f.name ".xlsx"))

/-- First loop of `discover_input_files`: parse the report month of each
scanned file; parse failures are appended to `skipped` with reason
`invalid_report_month: <message>`. -/
def parseCandidates (files : List SrcFile) : List Candidate × List Rejection :=
  files.foldl
    (fun acc f =>
      match parse_report_month f.name with
      | .error e => (acc.1, acc.2 ++ [{ file := f.name, reason := "invalid_report_month: " ++ e }])
      | .ok month =>
          (acc.1 ++ [{ path := f.name, file_name := f.name, report_month := month,
                       mtime := f.mtime, content := f.content }], acc.2))
    ([], [])

/-- Second loop of `discover_input_files`: keep one candidate per report month,
the one with the strictly greater mtime winning, the incumbent winning ties. -/
def dedupStep (acc : List (String × Candidate) × List Rejection) (item : Candidate) :
    List (String × Candidate) × List Rejection :=
  match alGet acc.1 item.report_month with
  | none => (alSet acc.1 item.report_month item, acc.2)
  | some existing =>
      if existing.mtime < item.mtime then
        (alSet acc.1 item.report_month item,
         acc.2 ++ [{ file := existing.path,
                     reason := "duplicate_month_replaced_by_newer_file:" ++ item.file_name }])
      else
        (acc.1,
         acc.2 ++ [{ file := item.path,
                     reason := "duplicate_month_older_than:" ++ existing.file_name }])

/-- `selected = [by_month[month] for month in sorted(by_month.keys())]` -/
def sortedValues (byMonth : List (String × Candidate)) : List Candidate :=
  (sortBy strLe (byMonth.map Prod.fst)).filterMap (alGet byMonth)

def discover_input_files (files : List SrcFile) : List Candidate × List Rejection :=
  let parsed := parseCandidates (scanOrder files)
  let deduped := parsed.1.foldl dedupStep ([], parsed.2)
  (sortedValues deduped.1, deduped.2)

/-! ## Raw-stage state store and orchestration loop (`ingest_all_months.main`)

The in-memory state is `state["files"]`: a dict from
`normalize_state_path_key(path)` to the record written on the file's last
successful ingest (the modelled record keeps the fields the loop reads or
writes). -/

def SCHEMA_ID : String := "sales_monthly_v1"

/-- `str(path.resolve()).lower()`; resolution is the identity on the
directory-relative paths of the model. -/
def normalize_state_path_key (path : String) : String :=
  lowerStr path

/-- The state key a candidate is tracked under. -/
def keyOf (c : Candidate) : String := normalize_state_path_key c.path

/-- The running selection the dedup fold keeps for one report month: start
with the first candidate, replace it whenever a strictly newer one arrives. -/
def foldWinner (w : Option Candidate) : List Candidate → Option Candidate
  | [] => w
  | c :: cs =>
      match w with
      | none => foldWinner (some c) cs
      | some cur => foldWinner (some (if cur.mtime < c.mtime then c else cur)) cs

/-- The scan-ordered candidates of one report month. -/
def monthScan (m : String) (files : List SrcFile) : List Candidate :=
  ((parseCandidates (scanOrder files)).1).filter (fun c => c.report_month == m)

structure FileRecord where
  file_name : String
  report_month : String
  sha256 : String
  parquet_path : String
  deriving Repr, DecidableEq

structure ProcessedEntry where
  file : String
  report_month : String
  rows_loaded : Nat
  parquet_path : String
  deriving Repr, DecidableEq

structure UnchangedEntry where
  file : String
  report_month : String
  deriving Repr, DecidableEq

structure FailedEntry where
  file : String
  report_month : String
  error : String
  deriving Repr, DecidableEq

/-- `previous.get("sha256") == checksum and previous.get("report_month") == file_info["report_month"]`
— the raw stage's unchanged test reads only the state record; it performs no
filesystem existence check on the recorded parquet output. -/
def rawUnchanged (files : List (String × FileRecord)) (key checksum month : String) : Bool :=
  match alGet files key with
  | some prev => prev.sha256 == checksum && prev.report_month == month
  | none => false

def rawOutputPath (output_root month : String) : String :=
  output_root ++ "/raw/sales_monthly/v1/report_month_" ++ month ++ "/sales_monthly_v1.parquet"

def ingestReportPath (output_root month : String) : String :=
  output_root ++ "/reports/sales_monthly/v1/" ++ month ++ "_ingest.json"

structure RawAcc where
  files : List (String × FileRecord)
  processed : List ProcessedEntry
  unchanged : List UnchangedEntry
  failed : List FailedEntry
  written : List String
  deriving Repr, DecidableEq

/-- One iteration of the `for file_info in files_to_consider` loop of `main`.
The transform `ingest : Candidate → Except String Nat` stands for
`ingest_workbook` (returning the loaded row count); `ingest_workbook` derives
`report["report_month"]` by the same `parse_report_month(input_path)` already
applied during discovery, so the report month of a successful transform equals
the candidate's `report_month`.  An exception from the transform is caught,
recorded in `failed` with its string representation, and the state entry is
left untouched. -/
def rawStep (hash : String → String) (ingest : Candidate → Except String Nat)
    (output_root : String) (acc : RawAcc) (c : Candidate) : RawAcc :=
  let key := normalize_state_path_key c.path
  let checksum := hash c.content
  if rawUnchanged acc.files key checksum c.report_month then
    { acc with unchanged := acc.unchanged ++ [{ file := c.path, report_month := c.report_month }] }
  else
    match ingest c with
    | .error e =>
        { acc with failed := acc.failed ++
            [{ file := c.path, report_month := c.report_month, error := e }] }
    | .ok rows =>
        let pqPath := rawOutputPath output_root c.report_month
        { acc with
          files := alSet acc.files key
            { file_name := c.file_name, report_month := c.report_month,
              sha256 := checksum, parquet_path := pqPath },
          processed := acc.processed ++
            [{ file := c.path, report_month := c.report_month,
               rows_loaded := rows, parquet_path := pqPath }],
          written := acc.written ++ [pqPath, ingestReportPath output_root c.report_month] }

def rawLoop (hash : String → String) (ingest : Candidate → Except String Nat)
    (output_root : String) (acc : RawAcc) (cands : List Candidate) : RawAcc :=
  cands.foldl (rawStep hash ingest output_root) acc

/-- The whole per-partition phase of `main`: discovery followed by the loop,
starting from the loaded state and empty run lists. -/
def rawRun (hash : String → String) (ingest : Candidate → Except String Nat)
    (output_root : String) (files0 : List (String × FileRecord))
    (files : List SrcFile) : RawAcc × List Rejection :=
  let disc := discover_input_files files
  (rawLoop hash ingest output_root
    { files := files0, processed := [], unchanged := [], failed := [], written := [] }
    disc.1, disc.2)

/-- `if failed or post_failed: raise SystemExit(1)` (and falling off `main`
exits 0). -/
def rawExitCode (failed : List FailedEntry) (postFailed : Bool) : Nat :=
  if !failed.isEmpty || postFailed then 1 else 0

/-! ## `save_state` (both scripts)

```python
def save_state(state_path, state):
    state_path.parent.mkdir(parents=True, exist_ok=True)
    state["updated_at"] = utc_now_iso()
    state_path.write_text(json.dumps(state, ...) + "\n", encoding="utf-8")
```

`Path.write_text` opens the target with mode `"w"` — truncating it in place —
and then writes the payload into the same path.  The observable contents of
the state file during the call are therefore the empty file left by the
truncating open followed by ever longer prefixes of the payload; there is no
temporary file and no rename. -/

def writeTextObservations (payload : String) : List String :=
  (List.range (payload.data.length + 1)).map (fun n => strTake payload n)

structure RawStateFile where
  schema_id : String
  updated_at : Option String
  files : List (String × FileRecord)
  deriving Repr, DecidableEq

/-- `save_state`: stamp `updated_at` with the current time, then `write_text`
the serialization of the stamped state (plus the trailing newline) to the
state path.  `dumps` abstracts `json.dumps`.  Returns the stamped in-memory
state and the sequence of contents a reader of the state path can observe
during the write. -/
def save_state (dumps : RawStateFile → String) (now : String) (st : RawStateFile) :
    RawStateFile × List String :=
  let stamped : RawStateFile := { st with updated_at := some now }
  (stamped, writeTextObservations (dumps stamped ++ "\n"))

/-! ## `load_state` (both scripts)

Persisted state files are JSON documents.  `none` models a missing file;
`some fields` models a file whose top-level object parsed to `fields`. -/

inductive Json where
  | null
  | bool (b : Bool)
  | str (s : String)
  | num (n : Int)
  | arr (elems : List Json)
  | obj (fields : List (String × Json))
  deriving Repr

def Json.isObj : Json → Bool
  | .obj _ => true
  | _ => false

def jsonGetD (fields : List (String × Json)) (key : String) (dflt : Json) : Json :=
  (alGet fields key).getD dflt

structure LoadedState where
  schema_id : Json
  updated_at : Json
  records : List (String × Json)

/-- `ingest_all_months.load_state`: a missing file yields the empty well-typed
state; an existing file is accepted only if its `files` field (defaulting to
`{}` when absent) is a mapping, else `ValueError` is raised. -/
def load_state (state_path : String) (file : Option (List (String × Json))) :
    Except String LoadedState :=
  match file with
  | none => .ok { schema_id := .str SCHEMA_ID, updated_at := .null, records := [] }
  | some payload =>
      match jsonGetD payload "files" (.obj []) with
      | .obj kvs =>
          .ok { schema_id := jsonGetD payload "schema_id" (.str SCHEMA_ID),
                updated_at := jsonGetD payload "updated_at" .null,
                records := kvs }
      | _ => .error ("Invalid state file format at " ++ state_path)

def Json.strD (j : Json) (d : String) : String :=
  match j with
  | .str s => s
  | _ => d

/-- View a persisted per-file JSON record through the fields the ingest loop
reads (`previous.get(...)`); a missing or non-string field never compares
equal to a computed checksum or month, matching the `""` default. -/
def decodeFileRecord (j : Json) : FileRecord :=
  match j with
  | .obj fields =>
      { file_name := (jsonGetD fields "file_name" .null).strD "",
        report_month := (jsonGetD fields "report_month" .null).strD "",
        sha256 := (jsonGetD fields "sha256" .null).strD "",
        parquet_path := (jsonGetD fields "parquet_path" .null).strD "" }
  | _ => { file_name := "", report_month := "", sha256 := "", parquet_path := "" }

/-- `main` up to the end of the per-file loop: state is loaded before any
partition is considered, so a load failure aborts the run before any
processing. -/
def rawRunFromDisk (hash : String → String) (ingest : Candidate → Except String Nat)
    (output_root state_path : String) (stateFile : Option (List (String × Json)))
    (files : List SrcFile) : Except String (RawAcc × List Rejection) :=
  (load_state state_path stateFile).map fun st =>
    rawRun hash ingest output_root
      (st.records.map (fun kv => (kv.1, decodeFileRecord kv.2))) files

def CURATED_SCHEMA_ID : String := "sales_monthly_curated_v1"

/-- `build_curated_sales_monthly.load_state`: same shape with the `months`
field and the curated schema id. -/
def load_curated_state (state_path : String) (file : Option (List (String × Json))) :
    Except String LoadedState :=
  match file with
  | none => .ok { schema_id := .str CURATED_SCHEMA_ID, updated_at := .null, records := [] }
  | some payload =>
      match jsonGetD payload "months" (.obj []) with
      | .obj kvs =>
          .ok { schema_id := jsonGetD payload "schema_id" (.str CURATED_SCHEMA_ID),
                updated_at := jsonGetD payload "updated_at" .null,
                records := kvs }
      | _ => .error ("Invalid curated state file: " ++ state_path)

/-! ## `build_curated_sales_monthly` — discovery and build loop -/

/-- A file found by the glob `report_month_*/sales_monthly_v1.parquet` under
the raw base: the partition directory name, the parquet's mtime and bytes.
The glob guarantees the directory name starts with `report_month_`. -/
structure RawParquet where
  dir_name : String
  mtime : Int
  content : String
  deriving Repr, DecidableEq

def RawParquet.path (rp : RawParquet) (output_root : String) : String :=
  output_root ++ "/raw/sales_monthly/v1/" ++ rp.dir_name ++ "/sales_monthly_v1.parquet"

/-- `parse_month_from_partition_dir`: strip the `report_month_` prefix, raising
on any other directory name. -/
def parse_month_from_partition_dir (name : String) : Except String String :=
  if hasPrefixStr name "report_month_" then
    .ok (strDrop name "report_month_".data.length)
  else
    .error ("Unexpected partition directory: " ++ name)

/-- Selection fold of `discover_raw_partitions`: one parquet per month, the
strictly newer mtime winning, the incumbent winning ties.  The rejection
reasons use `raw_path.name` / `Path(current).name`, which for these paths is
always the basename `sales_monthly_v1.parquet`. -/
def curatedDiscoverStep (output_root : String)
    (acc : List (String × RawParquet) × List Rejection) (rp : RawParquet) :
    List (String × RawParquet) × List Rejection :=
  match parse_month_from_partition_dir rp.dir_name with
  | .error _ => acc
  | .ok month =>
      match alGet acc.1 month with
      | none => (alSet acc.1 month rp, acc.2)
      | some current =>
          if current.mtime < rp.mtime then
            (alSet acc.1 month rp,
             acc.2 ++ [{ file := current.path output_root,
                         reason := "duplicate_month_replaced_by_newer_file:sales_monthly_v1.parquet" }])
          else
            (acc.1,
             acc.2 ++ [{ file := rp.path output_root,
                         reason := "duplicate_month_older_than:sales_monthly_v1.parquet" }])

/-- `discover_raw_partitions` over the lexicographically sorted glob results
(sorting the partition dir names sorts the full paths, which differ only
there). -/
def discover_raw_partitions (output_root : String) (parts : List RawParquet) :
    List (String × RawParquet) × List Rejection :=
  (sortBy (fun a b => strLe a.dir_name b.dir_name) parts).foldl
    (curatedDiscoverStep output_root) ([], [])

structure MonthRecord where
  raw_parquet_path : String
  raw_sha256 : String
  curated_parquet_path : String
  deriving Repr, DecidableEq

/-- The curated stage's unchanged test:
`previous.get("raw_sha256") == raw_checksum and Path(previous.get("curated_parquet_path", "")).exists()`.
With no record, `previous` is `{}` and the test is false (`Path("")` never
exists). -/
def curatedUnchanged (months : List (String × MonthRecord)) (fsExists : String → Bool)
    (month checksum : String) : Bool :=
  match alGet months month with
  | some prev => prev.raw_sha256 == checksum && fsExists prev.curated_parquet_path
  | none => false

def curatedOutputPath (output_root month : String) : String :=
  output_root ++ "/curated/sales_monthly/v1/report_month_" ++ month ++ "/sales_monthly_curated_v1.parquet"

def curatedReportPath (output_root month : String) : String :=
  output_root ++ "/reports/sales_monthly/v1/" ++ month ++ "_curated.json"

structure CuratedProcessedEntry where
  report_month : String
  raw_parquet_path : String
  curated_parquet_path : String
  row_count : Nat
  deriving Repr, DecidableEq

structure CuratedFailedEntry where
  report_month : String
  raw_parquet_path : String
  error : String
  deriving Repr, DecidableEq

structure CuratedAcc where
  months : List (String × MonthRecord)
  processed : List CuratedProcessedEntry
  unchanged : List UnchangedEntry
  failed : List CuratedFailedEntry
  written : List String
  deriving Repr, DecidableEq

/-- One iteration of the `for month in sorted(raw_mapping.keys())` loop of
`run_curated_build`; `build : RawParquet → Except String Nat` stands for
`build_curated_table` (returning the aggregated row count).  An exception from
the transform is caught, recorded in `failed` with its string representation,
and the month's state entry is left untouched. -/
def curatedStep (hash : String → String) (build : RawParquet → Except String Nat)
    (output_root : String) (fsExists : String → Bool)
    (acc : CuratedAcc) (mp : String × RawParquet) : CuratedAcc :=
  let month := mp.1
  let rp := mp.2
  let checksum := hash rp.content
  if curatedUnchanged acc.months fsExists month checksum then
    { acc with unchanged := acc.unchanged ++
        [{ file := rp.path output_root, report_month := month }] }
  else
    match build rp with
    | .error e =>
        { acc with failed := acc.failed ++
            [{ report_month := month, raw_parquet_path := rp.path output_root, error := e }] }
    | .ok rows =>
        let outPath := curatedOutputPath output_root month
        { acc with
          months := alSet acc.months month
            { raw_parquet_path := rp.path output_root, raw_sha256 := checksum,
              curated_parquet_path := outPath },
          processed := acc.processed ++
            [{ report_month := month, raw_parquet_path := rp.path output_root,
               curated_parquet_path := outPath, row_count := rows }],
          written := acc.written ++ [outPath, curatedReportPath output_root month] }

/-- `if selected_months is not None: raw_mapping = {m: p for ... if m in set}` -/
def filterMapping (mapping : List (String × RawParquet)) (sel : Option (List String)) :
    List (String × RawParquet) :=
  match sel with
  | none => mapping
  | some months => mapping.filter (fun kv => months.contains kv.1)

/-- Iterate the mapping in ascending month order. -/
def sortedPairs (mapping : List (String × RawParquet)) : List (String × RawParquet) :=
  (sortBy strLe (mapping.map Prod.fst)).filterMap
    (fun m => (alGet mapping m).map (fun rp => (m, rp)))

def curatedLoop (hash : String → String) (build : RawParquet → Except String Nat)
    (output_root : String) (fsExists : String → Bool)
    (acc : CuratedAcc) (pairs : List (String × RawParquet)) : CuratedAcc :=
  pairs.foldl (curatedStep hash build output_root fsExists) acc

/-- The per-month phase of `run_curated_build`: discovery, the optional month
filter, then the build loop from the loaded state. -/
def run_curated_build (hash : String → String) (build : RawParquet → Except String Nat)
    (output_root : String) (fsExists : String → Bool)
    (months0 : List (String × MonthRecord)) (sel : Option (List String))
    (parts : List RawParquet) : CuratedAcc × List Rejection :=
  let disc := discover_raw_partitions output_root parts
  let mapping := filterMapping disc.1 sel
  (curatedLoop hash build output_root fsExists
    { months := months0, processed := [], unchanged := [], failed := [], written := [] }
    (sortedPairs mapping), disc.2)

/-! ## Chaining (`ingest_all_months.main`, `--build-curated`)

```python
processed_months = sorted({item["report_month"] for item in processed})
months_for_curated = processed_months if processed_months else None
```
-/

def processedMonthsOf (processed : List ProcessedEntry) : List String :=
  sortBy strLe ((processed.map ProcessedEntry.report_month).eraseDups)

def monthsForCurated (processedMonths : List String) : Option (List String) :=
  if processedMonths.isEmpty then none else some processedMonths

/-- `build_curated_sales_monthly.main` exit policy:
`if summary["failed_count"] > 0: raise SystemExit(1)` (and falling off `main`
exits 0). -/
def curatedExitCode (failed : List CuratedFailedEntry) : Nat :=
  if failed.length > 0 then 1 else 0

/-- The `--build-curated` chained invocation of `ingest_all_months.main`
(without `--generate-kpis`): run the raw loop, hand the processed months (or
`None` when there are none) to `run_curated_build`, and exit through
`if failed or post_failed: raise SystemExit(1)`.
`post_steps["build_curated"]["error"]` is set only when `run_curated_build`
raises; a curated build that completes with per-month failures returns its
summary normally and leaves the error `None`, so the final exit test sees only
the raw failed list.  `parts` stands for the raw-layer parquet files the
curated discovery scans. -/
def chainedRun (hash : String → String) (ingest : Candidate → Except String Nat)
    (build : RawParquet → Except String Nat) (output_root : String)
    (fsExists : String → Bool) (files0 : List (String × FileRecord))
    (months0 : List (String × MonthRecord)) (files : List SrcFile)
    (parts : List RawParquet) : RawAcc × CuratedAcc × Nat :=
  let raw := (rawRun hash ingest output_root files0 files).1
  let sel := monthsForCurated (processedMonthsOf raw.processed)
  let curated := (run_curated_build hash build output_root fsExists months0 sel parts).1
  (raw, curated, rawExitCode raw.failed false)

/-! # Theorems -/

/-! ## General helpers -/

theorem foldl_invariant {α β : Type} (f : β → α → β) (P : β → Prop)
    (l : List α) (acc : β) (h0 : P acc)
    (hstep : ∀ acc2 x, x ∈ l → P acc2 → P (f acc2 x)) :
    P (l.foldl f acc) := by
  induction l generalizing acc with
  | nil => exact h0
  | cons hd tl ih =>
      exact ih (f acc hd) (hstep acc hd (by simp) h0)
        (fun acc2 x hx => hstep acc2 x (by simp [hx]))

theorem string_mk_data (s : String) : String.mk s.data = s := by
  cases s
  rfl

theorem append_ne_empty_of_ne (a b : String) (hb : b.data ≠ []) : a ++ b ≠ "" := by
  intro h
  have hdata : (a ++ b).data = "".data := congrArg String.data h
  rw [String.data_append] at hdata
  simp at hdata
  exact hb hdata.2

/-! ## C8 — `load_state` on a missing file and on a malformed file -/

/-- C8: `load_state` returns an empty, well-typed state (the stage's schema
id, an empty keyed-records mapping) when no persisted state file exists,
without raising; and it raises when the file exists but its keyed-records
field (`files` / `months`) is not a mapping — for the ingest orchestrator
this happens in `load_state` before any partition of the run is processed. -/
theorem claim8_load_state (path path2 : String)
    (payload payload2 : List (String × Json)) (j j2 : Json)
    (hash : String → String) (ingest : Candidate → Except String Nat)
    (root : String) (files : List SrcFile)
    (hfiles : alGet payload "files" = some j) (hnotobj : j.isObj = false)
    (hmonths : alGet payload2 "months" = some j2) (hnotobj2 : j2.isObj = false) :
    load_state path none =
      .ok { schema_id := .str SCHEMA_ID, updated_at := .null, records := [] } ∧
    load_curated_state path2 none =
      .ok { schema_id := .str CURATED_SCHEMA_ID, updated_at := .null, records := [] } ∧
    load_state path (some payload) = .error ("Invalid state file format at " ++ path) ∧
    load_curated_state path2 (some payload2) =
      .error ("Invalid curated state file: " ++ path2) ∧
    rawRunFromDisk hash ingest root path (some payload) files =
      .error ("Invalid state file format at " ++ path) := by
  have hload : load_state path (some payload) =
      .error ("Invalid state file format at " ++ path) := by
    simp only [load_state, jsonGetD, hfiles, Option.getD_some]
    cases j <;> simp_all [Json.isObj]
  refine ⟨rfl, rfl, hload, ?_, ?_⟩
  · simp only [load_curated_state, jsonGetD, hmonths, Option.getD_some]
    cases j2 <;> simp_all [Json.isObj]
  · unfold rawRunFromDisk
    rw [hload]
    rfl

/-- C8 witness: concrete malformed persisted states (a numeric `files` field,
a string `months` field) are rejected, and a missing file loads as the empty
state. -/
theorem claim8_witness :
    load_state "state.json" none =
      .ok { schema_id := .str SCHEMA_ID, updated_at := .null, records := [] } ∧
    load_curated_state "cur.json" none =
      .ok { schema_id := .str CURATED_SCHEMA_ID, updated_at := .null, records := [] } ∧
    load_state "state.json" (some [("files", Json.num 3)]) =
      .error ("Invalid state file format at " ++ "state.json") ∧
    load_curated_state "cur.json" (some [("months", Json.str "x")]) =
      .error ("Invalid curated state file: " ++ "cur.json") ∧
    rawRunFromDisk (fun s => s) (fun _ => .ok 0) "out" "state.json"
      (some [("files", Json.num 3)]) [] =
      .error ("Invalid state file format at " ++ "state.json") :=
  claim8_load_state "state.json" "cur.json" [("files", Json.num 3)]
    [("months", Json.str "x")] (Json.num 3) (Json.str "x")
    (fun s => s) (fun _ => .ok 0) "out" [] rfl rfl rfl rfl

/-! ## C3 — `save_state` is not an all-or-nothing write -/

/-- C3 counterexample: with the state file previously holding `"OLD"` and the
serializer producing `"S"`, a reader racing `save_state` can observe the
truncated empty file, which is neither the previous contents nor the complete
new contents (`"S\n"`).  `save_state` writes the serialized state in place
with a truncating `write_text`; there is no temporary file and no rename. -/
theorem claim3_counterexample :
    ∃ obs ∈ (save_state (fun _ => "S") "2025-01-01T00:00:00+00:00"
        { schema_id := "sales_monthly_v1", updated_at := none, files := [] }).2,
      obs ≠ "OLD" ∧ obs ≠ "S\n" :=
  ⟨"", by decide, by decide, by decide⟩

/-- C3 amended: `save_state` stamps `updated_at` with the fresh time and
leaves the records untouched, and the complete serialized state is the final
observable contents; but the write is in place and truncating, so every
observable contents is some prefix of the new payload and in particular the
empty truncated file — distinct from any nonempty previous contents and from
the complete new contents — is observable by a reader racing a killed
`save_state`. -/
theorem claim3_amended (dumps : RawStateFile → String) (now old : String)
    (st : RawStateFile) (hold : old ≠ "") :
    (save_state dumps now st).1.updated_at = some now ∧
    (save_state dumps now st).1.schema_id = st.schema_id ∧
    (save_state dumps now st).1.files = st.files ∧
    (dumps (save_state dumps now st).1 ++ "\n") ∈ (save_state dumps now st).2 ∧
    (∀ obs ∈ (save_state dumps now st).2,
        ∃ n, obs = strTake (dumps (save_state dumps now st).1 ++ "\n") n) ∧
    (∃ obs ∈ (save_state dumps now st).2,
        obs ≠ old ∧ obs ≠ dumps (save_state dumps now st).1 ++ "\n") := by
  set payload := dumps (save_state dumps now st).1 ++ "\n" with hpayload
  refine ⟨rfl, rfl, rfl, ?_, ?_, ?_⟩
  · show payload ∈ writeTextObservations payload
    unfold writeTextObservations
    refine List.mem_map.2 ⟨payload.data.length, ?_, ?_⟩
    · exact List.mem_range.2 (Nat.lt_succ_self _)
    · unfold strTake
      rw [List.take_length]
  · intro obs hobs
    rcases List.mem_map.1 hobs with ⟨n, _, hn⟩
    exact ⟨n, hn.symm⟩
  · refine ⟨"", ?_, ?_, ?_⟩
    · show ("" : String) ∈ writeTextObservations payload
      unfold writeTextObservations
      exact List.mem_map.2 ⟨0, List.mem_range.2 (Nat.succ_pos _), rfl⟩
    · exact fun h => hold h.symm
    · intro h
      exact append_ne_empty_of_ne (dumps (save_state dumps now st).1) "\n"
        (by decide) h.symm

/-- C3 amended, witness: the concrete instance of the amended statement with
the serializer returning `"S"` and previous contents `"OLD"`. -/
theorem claim3_amended_witness :
    (save_state (fun _ => "S") "2025-01-01T00:00:00+00:00"
        { schema_id := "sales_monthly_v1", updated_at := none, files := [] }).1.updated_at =
      some "2025-01-01T00:00:00+00:00" ∧
    (save_state (fun _ => "S") "2025-01-01T00:00:00+00:00"
        { schema_id := "sales_monthly_v1", updated_at := none, files := [] }).1.schema_id =
      "sales_monthly_v1" ∧
    (save_state (fun _ => "S") "2025-01-01T00:00:00+00:00"
        { schema_id := "sales_monthly_v1", updated_at := none, files := [] }).1.files = [] ∧
    ((fun (_ : RawStateFile) => "S")
        (save_state (fun _ => "S") "2025-01-01T00:00:00+00:00"
          { schema_id := "sales_monthly_v1", updated_at := none, files := [] }).1 ++ "\n") ∈
      (save_state (fun _ => "S") "2025-01-01T00:00:00+00:00"
        { schema_id := "sales_monthly_v1", updated_at := none, files := [] }).2 ∧
    (∀ obs ∈ (save_state (fun _ => "S") "2025-01-01T00:00:00+00:00"
        { schema_id := "sales_monthly_v1", updated_at := none, files := [] }).2,
        ∃ n, obs = strTake ((fun (_ : RawStateFile) => "S")
          (save_state (fun _ => "S") "2025-01-01T00:00:00+00:00"
            { schema_id := "sales_monthly_v1", updated_at := none, files := [] }).1 ++ "\n") n) ∧
    (∃ obs ∈ (save_state (fun _ => "S") "2025-01-01T00:00:00+00:00"
        { schema_id := "sales_monthly_v1", updated_at := none, files := [] }).2,
        obs ≠ "OLD" ∧ obs ≠ (fun (_ : RawStateFile) => "S")
          (save_state (fun _ => "S") "2025-01-01T00:00:00+00:00"
            { schema_id := "sales_monthly_v1", updated_at := none, files := [] }).1 ++ "\n") :=
  claim3_amended (fun _ => "S") "2025-01-01T00:00:00+00:00" "OLD"
    { schema_id := "sales_monthly_v1", updated_at := none, files := [] } (by decide)

/-! ## C10 — partition-key derivation -/

theorem monthTokenAt_iff (l : List Char) :
    monthTokenAt l = true ↔ ∃ a b c d rest,
      l = '2' :: '0' :: a :: b :: '-' :: c :: d :: rest ∧
      a.isDigit = true ∧ b.isDigit = true ∧ c.isDigit = true ∧ d.isDigit = true := by
  constructor
  · intro h
    rcases l with _ | ⟨c1, l⟩
    · exact absurd h (by simp [monthTokenAt])
    rcases l with _ | ⟨c2, l⟩
    · exact absurd h (by simp [monthTokenAt])
    rcases l with _ | ⟨a, l⟩
    · exact absurd h (by simp [monthTokenAt])
    rcases l with _ | ⟨b, l⟩
    · exact absurd h (by simp [monthTokenAt])
    rcases l with _ | ⟨c5, l⟩
    · exact absurd h (by simp [monthTokenAt])
    rcases l with _ | ⟨c, l⟩
    · exact absurd h (by simp [monthTokenAt])
    rcases l with _ | ⟨d, rest⟩
    · exact absurd h (by simp [monthTokenAt])
    simp only [monthTokenAt, Bool.and_eq_true, beq_iff_eq] at h
    obtain ⟨⟨⟨⟨⟨⟨h1, h2⟩, ha⟩, hb⟩, h5⟩, hc⟩, hd⟩ := h
    exact ⟨a, b, c, d, rest, by rw [h1, h2, h5], ha, hb, hc, hd⟩
  · rintro ⟨a, b, c, d, rest, rfl, ha, hb, hc, hd⟩
    simp [monthTokenAt, ha, hb, hc, hd]

theorem findMonthToken_eq_some_iff (l m : List Char) :
    findMonthToken l = some m ↔
      ∃ i, monthTokenAt (l.drop i) = true ∧ m = (l.drop i).take 7 ∧
        ∀ j, j < i → monthTokenAt (l.drop j) = false := by
  induction l with
  | nil =>
      simp only [findMonthToken]
      constructor
      · intro h
        cases h
      · rintro ⟨i, hi, _, _⟩
        simp [monthTokenAt] at hi
  | cons c cs ih =>
      by_cases h : monthTokenAt (c :: cs) = true
      · simp only [findMonthToken, h, if_true]
        constructor
        · intro hm
          refine ⟨0, by simpa using h, ?_, by omega⟩
          simpa using (Option.some.injEq _ _ ▸ hm).symm
        · rintro ⟨i, hi, hm, hall⟩
          cases i with
          | zero => simpa using hm.symm
          | succ i2 =>
              have := hall 0 (Nat.succ_pos _)
              rw [List.drop_zero] at this
              rw [this] at h
              cases h
      · have hfalse : monthTokenAt (c :: cs) = false := by
          cases hmt : monthTokenAt (c :: cs)
          · rfl
          · exact absurd hmt h
        simp only [findMonthToken, hfalse, Bool.false_eq_true, if_false]
        rw [ih]
        constructor
        · rintro ⟨i, hi, hm, hall⟩
          refine ⟨i + 1, by simpa using hi, by simpa using hm, ?_⟩
          intro j hj
          cases j with
          | zero => simpa using hfalse
          | succ j2 => simpa using hall j2 (by omega)
        · rintro ⟨i, hi, hm, hall⟩
          cases i with
          | zero =>
              rw [List.drop_zero] at hi
              rw [hi] at hfalse
              cases hfalse
          | succ i2 =>
              refine ⟨i2, by simpa using hi, by simpa using hm, ?_⟩
              intro j hj
              have := hall (j + 1) (by omega)
              simpa using this

/-- C10: the partition key of a file name is the leftmost substring matching
`20`, two digits, a hyphen, two digits — with no validation that the month
component lies in 01..12: `sales_2024-13.xlsx` parses to `2024-13`, and a
name with two such substrings takes the earlier one. -/
theorem claim10_parse_report_month :
    parse_report_month "sales_2024-13.xlsx" = .ok "2024-13" ∧
    parse_report_month "x_2023-09_2024-01.xlsx" = .ok "2023-09" ∧
    (∀ name m, parse_report_month name = .ok m ↔
      ∃ i, monthTokenAt (name.data.drop i) = true ∧
        m = String.mk ((name.data.drop i).take 7) ∧
        ∀ j, j < i → monthTokenAt (name.data.drop j) = false) ∧
    (∀ l, monthTokenAt l = true ↔ ∃ a b c d rest,
      l = '2' :: '0' :: a :: b :: '-' :: c :: d :: rest ∧
      a.isDigit = true ∧ b.isDigit = true ∧ c.isDigit = true ∧ d.isDigit = true) := by
  refine ⟨rfl, rfl, ?_, monthTokenAt_iff⟩
  intro name m
  have key : parse_report_month name = .ok m ↔ findMonthToken name.data = some m.data := by
    unfold parse_report_month
    cases hf : findMonthToken name.data with
    | none =>
        simp only [hf]
        constructor
        · intro h
          cases h
        · intro h
          cases h
    | some token =>
        simp only [hf, Option.some.injEq]
        constructor
        · intro h
          have h2 : String.mk token = m := by
            injection h
          rw [← h2]
        · intro h
          have h2 : String.mk token = m := by
            rw [h, string_mk_data]
          rw [h2]
  rw [key, findMonthToken_eq_some_iff]
  constructor
  · rintro ⟨i, hi, hm, hall⟩
    refine ⟨i, hi, ?_, hall⟩
    rw [← hm, string_mk_data]
  · rintro ⟨i, hi, hm, hall⟩
    refine ⟨i, hi, ?_, hall⟩
    rw [hm]

/-! ## Case analyses of the two loop bodies -/

theorem rawStep_cases (hash : String → String) (ingest : Candidate → Except String Nat)
    (root : String) (acc : RawAcc) (c : Candidate) :
    (rawUnchanged acc.files (normalize_state_path_key c.path) (hash c.content)
        c.report_month = true ∧
      rawStep hash ingest root acc c =
        { acc with unchanged := acc.unchanged ++
            [{ file := c.path, report_month := c.report_month }] }) ∨
    (rawUnchanged acc.files (normalize_state_path_key c.path) (hash c.content)
        c.report_month = false ∧ ∃ e, ingest c = .error e ∧
      rawStep hash ingest root acc c =
        { acc with failed := acc.failed ++
            [{ file := c.path, report_month := c.report_month, error := e }] }) ∨
    (rawUnchanged acc.files (normalize_state_path_key c.path) (hash c.content)
        c.report_month = false ∧ ∃ rows, ingest c = .ok rows ∧
      rawStep hash ingest root acc c =
        { acc with
          files := alSet acc.files (normalize_state_path_key c.path)
            { file_name := c.file_name, report_month := c.report_month,
              sha256 := hash c.content,
              parquet_path := rawOutputPath root c.report_month },
          processed := acc.processed ++
            [{ file := c.path, report_month := c.report_month,
               rows_loaded := rows, parquet_path := rawOutputPath root c.report_month }],
          written := acc.written ++
            [rawOutputPath root c.report_month, ingestReportPath root c.report_month] }) := by
  by_cases h : rawUnchanged acc.files (normalize_state_path_key c.path) (hash c.content)
      c.report_month = true
  · left
    exact ⟨h, by simp only [rawStep, h, if_true]⟩
  · have hf : rawUnchanged acc.files (normalize_state_path_key c.path) (hash c.content)
        c.report_month = false := by
      cases hx : rawUnchanged acc.files (normalize_state_path_key c.path) (hash c.content)
          c.report_month
      · rfl
      · exact absurd hx h
    cases hi : ingest c with
    | error e =>
        right; left
        exact ⟨hf, e, rfl, by simp only [rawStep, hf, Bool.false_eq_true, if_false, hi]⟩
    | ok rows =>
        right; right
        exact ⟨hf, rows, rfl, by simp only [rawStep, hf, Bool.false_eq_true, if_false, hi]⟩

theorem curatedStep_cases (hash : String → String) (build : RawParquet → Except String Nat)
    (root : String) (fsExists : String → Bool) (acc : CuratedAcc) (mp : String × RawParquet) :
    (curatedUnchanged acc.months fsExists mp.1 (hash mp.2.content) = true ∧
      curatedStep hash build root fsExists acc mp =
        { acc with unchanged := acc.unchanged ++
            [{ file := mp.2.path root, report_month := mp.1 }] }) ∨
    (curatedUnchanged acc.months fsExists mp.1 (hash mp.2.content) = false ∧
      ∃ e, build mp.2 = .error e ∧
      curatedStep hash build root fsExists acc mp =
        { acc with failed := acc.failed ++
            [{ report_month := mp.1, raw_parquet_path := mp.2.path root, error := e }] }) ∨
    (curatedUnchanged acc.months fsExists mp.1 (hash mp.2.content) = false ∧
      ∃ rows, build mp.2 = .ok rows ∧
      curatedStep hash build root fsExists acc mp =
        { acc with
          months := alSet acc.months mp.1
            { raw_parquet_path := mp.2.path root, raw_sha256 := hash mp.2.content,
              curated_parquet_path := curatedOutputPath root mp.1 },
          processed := acc.processed ++
            [{ report_month := mp.1, raw_parquet_path := mp.2.path root,
               curated_parquet_path := curatedOutputPath root mp.1, row_count := rows }],
          written := acc.written ++
            [curatedOutputPath root mp.1, curatedReportPath root mp.1] }) := by
  by_cases h : curatedUnchanged acc.months fsExists mp.1 (hash mp.2.content) = true
  · left
    exact ⟨h, by simp only [curatedStep, h, if_true]⟩
  · have hf : curatedUnchanged acc.months fsExists mp.1 (hash mp.2.content) = false := by
      cases hx : curatedUnchanged acc.months fsExists mp.1 (hash mp.2.content)
      · rfl
      · exact absurd hx h
    cases hb : build mp.2 with
    | error e =>
        right; left
        exact ⟨hf, e, rfl, by simp only [curatedStep, hf, Bool.false_eq_true, if_false, hb]⟩
    | ok rows =>
        right; right
        exact ⟨hf, rows, rfl, by simp only [curatedStep, hf, Bool.false_eq_true, if_false, hb]⟩

/-! ## Loop invariants -/

theorem rawLoop_cons (hash : String → String) (ingest : Candidate → Except String Nat)
    (root : String) (acc : RawAcc) (c : Candidate) (cs : List Candidate) :
    rawLoop hash ingest root acc (c :: cs) =
      rawLoop hash ingest root (rawStep hash ingest root acc c) cs := rfl

theorem rawStep_lists_mono (hash : String → String) (ingest : Candidate → Except String Nat)
    (root : String) (acc : RawAcc) (c : Candidate) :
    (∀ e ∈ acc.processed, e ∈ (rawStep hash ingest root acc c).processed) ∧
    (∀ e ∈ acc.unchanged, e ∈ (rawStep hash ingest root acc c).unchanged) ∧
    (∀ e ∈ acc.failed, e ∈ (rawStep hash ingest root acc c).failed) ∧
    (∀ e ∈ acc.written, e ∈ (rawStep hash ingest root acc c).written) := by
  rcases rawStep_cases hash ingest root acc c with ⟨_, heq⟩ | ⟨_, e2, _, heq⟩ | ⟨_, rows, _, heq⟩ <;>
    rw [heq] <;> exact ⟨fun e he => by simp [he], fun e he => by simp [he],
      fun e he => by simp [he], fun e he => by simp [he]⟩

theorem rawLoop_failed_mono (hash : String → String) (ingest : Candidate → Except String Nat)
    (root : String) (cs : List Candidate) (acc : RawAcc) (e : FailedEntry)
    (he : e ∈ acc.failed) : e ∈ (rawLoop hash ingest root acc cs).failed :=
  foldl_invariant _ (fun a => e ∈ a.failed) cs acc he
    (fun a c _ h2 => (rawStep_lists_mono hash ingest root a c).2.2.1 e h2)

theorem rawLoop_processed_mono (hash : String → String) (ingest : Candidate → Except String Nat)
    (root : String) (cs : List Candidate) (acc : RawAcc) (e : ProcessedEntry)
    (he : e ∈ acc.processed) : e ∈ (rawLoop hash ingest root acc cs).processed :=
  foldl_invariant _ (fun a => e ∈ a.processed) cs acc he
    (fun a c _ h2 => (rawStep_lists_mono hash ingest root a c).1 e h2)

theorem rawStep_counts (hash : String → String) (ingest : Candidate → Except String Nat)
    (root : String) (acc : RawAcc) (c : Candidate) :
    (rawStep hash ingest root acc c).processed.length +
      (rawStep hash ingest root acc c).unchanged.length +
      (rawStep hash ingest root acc c).failed.length =
    acc.processed.length + acc.unchanged.length + acc.failed.length + 1 := by
  rcases rawStep_cases hash ingest root acc c with ⟨_, heq⟩ | ⟨_, e2, _, heq⟩ | ⟨_, rows, _, heq⟩ <;>
    rw [heq] <;> simp <;> omega

theorem rawLoop_counts (hash : String → String) (ingest : Candidate → Except String Nat)
    (root : String) (cs : List Candidate) (acc : RawAcc) :
    (rawLoop hash ingest root acc cs).processed.length +
      (rawLoop hash ingest root acc cs).unchanged.length +
      (rawLoop hash ingest root acc cs).failed.length =
    acc.processed.length + acc.unchanged.length + acc.failed.length + cs.length := by
  induction cs generalizing acc with
  | nil => simp [rawLoop]
  | cons c cs ih =>
      rw [rawLoop_cons, ih, rawStep_counts]
      simp
      omega

theorem rawStep_files_preserve (hash : String → String) (ingest : Candidate → Except String Nat)
    (root : String) (acc : RawAcc) (c : Candidate) (k : String) (hk : keyOf c ≠ k) :
    alGet (rawStep hash ingest root acc c).files k = alGet acc.files k := by
  rcases rawStep_cases hash ingest root acc c with ⟨_, heq⟩ | ⟨_, e2, _, heq⟩ | ⟨_, rows, _, heq⟩ <;>
    rw [heq]
  exact alGet_alSet_ne acc.files (keyOf c) k _ hk

theorem rawLoop_files_preserve (hash : String → String) (ingest : Candidate → Except String Nat)
    (root : String) (cs : List Candidate) (acc : RawAcc) (k : String)
    (hk : ∀ c ∈ cs, keyOf c ≠ k) :
    alGet (rawLoop hash ingest root acc cs).files k = alGet acc.files k :=
  foldl_invariant _ (fun a => alGet a.files k = alGet acc.files k) cs acc rfl
    (fun a c hc h2 => by
      dsimp only at h2 ⊢
      rw [rawStep_files_preserve hash ingest root a c k (hk c hc), h2])

theorem curatedLoop_cons (hash : String → String) (build : RawParquet → Except String Nat)
    (root : String) (fsExists : String → Bool) (acc : CuratedAcc)
    (mp : String × RawParquet) (pairs : List (String × RawParquet)) :
    curatedLoop hash build root fsExists acc (mp :: pairs) =
      curatedLoop hash build root fsExists (curatedStep hash build root fsExists acc mp) pairs := rfl

theorem curatedStep_lists_mono (hash : String → String) (build : RawParquet → Except String Nat)
    (root : String) (fsExists : String → Bool) (acc : CuratedAcc) (mp : String × RawParquet) :
    (∀ e ∈ acc.processed, e ∈ (curatedStep hash build root fsExists acc mp).processed) ∧
    (∀ e ∈ acc.unchanged, e ∈ (curatedStep hash build root fsExists acc mp).unchanged) ∧
    (∀ e ∈ acc.failed, e ∈ (curatedStep hash build root fsExists acc mp).failed) ∧
    (∀ e ∈ acc.written, e ∈ (curatedStep hash build root fsExists acc mp).written) := by
  rcases curatedStep_cases hash build root fsExists acc mp with
      ⟨_, heq⟩ | ⟨_, e2, _, heq⟩ | ⟨_, rows, _, heq⟩ <;>
    rw [heq] <;> exact ⟨fun e he => by simp [he], fun e he => by simp [he],
      fun e he => by simp [he], fun e he => by simp [he]⟩

theorem curatedLoop_failed_mono (hash : String → String) (build : RawParquet → Except String Nat)
    (root : String) (fsExists : String → Bool) (pairs : List (String × RawParquet))
    (acc : CuratedAcc) (e : CuratedFailedEntry) (he : e ∈ acc.failed) :
    e ∈ (curatedLoop hash build root fsExists acc pairs).failed :=
  foldl_invariant _ (fun a => e ∈ a.failed) pairs acc he
    (fun a mp _ h2 => (curatedStep_lists_mono hash build root fsExists a mp).2.2.1 e h2)

theorem curatedLoop_written_mono (hash : String → String) (build : RawParquet → Except String Nat)
    (root : String) (fsExists : String → Bool) (pairs : List (String × RawParquet))
    (acc : CuratedAcc) (p : String) (he : p ∈ acc.written) :
    p ∈ (curatedLoop hash build root fsExists acc pairs).written :=
  foldl_invariant _ (fun a => p ∈ a.written) pairs acc he
    (fun a mp _ h2 => (curatedStep_lists_mono hash build root fsExists a mp).2.2.2 p h2)

theorem curatedStep_months_preserve (hash : String → String)
    (build : RawParquet → Except String Nat) (root : String) (fsExists : String → Bool)
    (acc : CuratedAcc) (mp : String × RawParquet) (k : String) (hk : mp.1 ≠ k) :
    alGet (curatedStep hash build root fsExists acc mp).months k = alGet acc.months k := by
  rcases curatedStep_cases hash build root fsExists acc mp with
      ⟨_, heq⟩ | ⟨_, e2, _, heq⟩ | ⟨_, rows, _, heq⟩ <;> rw [heq]
  exact alGet_alSet_ne acc.months mp.1 k _ hk

theorem curatedLoop_months_preserve (hash : String → String)
    (build : RawParquet → Except String Nat) (root : String) (fsExists : String → Bool)
    (pairs : List (String × RawParquet)) (acc : CuratedAcc) (k : String)
    (hk : ∀ mp ∈ pairs, mp.1 ≠ k) :
    alGet (curatedLoop hash build root fsExists acc pairs).months k = alGet acc.months k :=
  foldl_invariant _ (fun a => alGet a.months k = alGet acc.months k) pairs acc rfl
    (fun a mp hc h2 => by
      dsimp only at h2 ⊢
      rw [curatedStep_months_preserve hash build root fsExists a mp k (hk mp hc), h2])

/-! ## C9 — month filtering between raw ingest and curated build -/

theorem alGet_some_mem_keys {α : Type} (l : List (String × α)) (k : String) (v : α)
    (h : alGet l k = some v) : k ∈ l.map Prod.fst := by
  induction l with
  | nil => cases h
  | cons hd tl ih =>
      obtain ⟨k2, v2⟩ := hd
      by_cases hk : k2 = k
      · simp [hk]
      · simp only [alGet, if_neg hk] at h
        simp [ih h]

theorem sortedPairs_mem_keys (mapping : List (String × RawParquet)) (m : String)
    (rp : RawParquet) (h : (m, rp) ∈ sortedPairs mapping) :
    m ∈ mapping.map Prod.fst ∧ alGet mapping m = some rp := by
  unfold sortedPairs at h
  rcases List.mem_filterMap.1 h with ⟨m2, hm2, hmap⟩
  cases halg : alGet mapping m2 with
  | none => rw [halg] at hmap; cases hmap
  | some rp2 =>
      rw [halg] at hmap
      simp at hmap
      obtain ⟨rfl, rfl⟩ := hmap
      exact ⟨alGet_some_mem_keys _ _ _ halg, halg⟩

theorem filterMapping_some_keys (mapping : List (String × RawParquet)) (sel : List String) :
    (filterMapping mapping (some sel)).map Prod.fst =
      (mapping.map Prod.fst).filter (fun m => sel.contains m) := by
  show (mapping.filter (fun kv => sel.contains kv.1)).map Prod.fst =
    (mapping.map Prod.fst).filter (fun m => sel.contains m)
  induction mapping with
  | nil => rfl
  | cons hd tl ih =>
      obtain ⟨m, rp⟩ := hd
      by_cases h : sel.contains m = true
      · simp only [List.filter_cons, h, if_true, List.map_cons, ih]
      · simp only [List.filter_cons, h, Bool.false_eq_true, if_false, List.map_cons, ih]

/-- Every month the curated loop classifies (processed, unchanged, or failed)
comes from the month/parquet pairs it iterates. -/
theorem curatedLoop_touched_months (hash : String → String)
    (build : RawParquet → Except String Nat) (root : String) (fsExists : String → Bool)
    (pairs : List (String × RawParquet)) (acc : CuratedAcc) :
    (∀ e ∈ (curatedLoop hash build root fsExists acc pairs).processed,
        e ∈ acc.processed ∨ e.report_month ∈ pairs.map Prod.fst) ∧
    (∀ e ∈ (curatedLoop hash build root fsExists acc pairs).unchanged,
        e ∈ acc.unchanged ∨ e.report_month ∈ pairs.map Prod.fst) ∧
    (∀ e ∈ (curatedLoop hash build root fsExists acc pairs).failed,
        e ∈ acc.failed ∨ e.report_month ∈ pairs.map Prod.fst) := by
  unfold curatedLoop
  refine foldl_invariant _ (fun a =>
    (∀ e ∈ a.processed, e ∈ acc.processed ∨ e.report_month ∈ pairs.map Prod.fst) ∧
    (∀ e ∈ a.unchanged, e ∈ acc.unchanged ∨ e.report_month ∈ pairs.map Prod.fst) ∧
    (∀ e ∈ a.failed, e ∈ acc.failed ∨ e.report_month ∈ pairs.map Prod.fst))
    pairs acc ⟨fun e he => .inl he, fun e he => .inl he, fun e he => .inl he⟩ ?_
  intro a mp hmp ih
  have hmonth : mp.1 ∈ pairs.map Prod.fst := List.mem_map.2 ⟨mp, hmp, rfl⟩
  rcases curatedStep_cases hash build root fsExists a mp with
      ⟨_, heq⟩ | ⟨_, e2, _, heq⟩ | ⟨_, rows, _, heq⟩ <;> rw [heq] <;>
    refine ⟨?_, ?_, ?_⟩ <;> intro e he <;> simp only [List.mem_append, List.mem_singleton] at he
  · exact ih.1 e he
  · rcases he with he | he
    · exact ih.2.1 e he
    · subst he
      exact .inr hmonth
  · exact ih.2.2 e he
  · exact ih.1 e he
  · exact ih.2.1 e he
  · rcases he with he | he
    · exact ih.2.2 e he
    · subst he
      exact .inr hmonth
  · rcases he with he | he
    · exact ih.1 e he
    · subst he
      exact .inr hmonth
  · exact ih.2.1 e he
  · exact ih.2.2 e he

/-- C9 counterexample: a chained run in which the raw-ingest stage processed
zero partitions does not pass the empty set of months to the curated build;
it passes `None`, so the curated stage considers — and here rebuilds — a
discovered month even though the raw stage just processed no months at all. -/
theorem claim9_counterexample :
    monthsForCurated (processedMonthsOf []) = none ∧
    (run_curated_build (fun s => "H" ++ s) (fun _ => .ok 3) "out" (fun _ => false) []
        (monthsForCurated (processedMonthsOf []))
        [{ dir_name := "report_month_2024-01", mtime := 0, content := "RAW" }]).1.processed.map
      CuratedProcessedEntry.report_month = ["2024-01"] := by
  exact ⟨rfl, by decide⟩

/-- C9 amended: when the raw stage processed at least one month, that list is
passed as the curated filter and the curated stage considers exactly the
discovered raw months that lie in it; when the raw stage processed zero
months, `None` is passed and the curated stage considers every discovered raw
month.  In all cases the curated loop classifies only months of its filtered
mapping. -/
theorem claim9_amended (root : String) (mapping : List (String × RawParquet))
    (sel : List String) (pm : List String) (hash : String → String)
    (build : RawParquet → Except String Nat) (fsExists : String → Bool)
    (months0 : List (String × MonthRecord)) (selOpt : Option (List String))
    (parts : List RawParquet) (hpm : pm ≠ []) :
    monthsForCurated pm = some pm ∧
    monthsForCurated [] = none ∧
    ((filterMapping mapping (some sel)).map Prod.fst =
      (mapping.map Prod.fst).filter (fun m => sel.contains m)) ∧
    filterMapping mapping none = mapping ∧
    (∀ e ∈ (run_curated_build hash build root fsExists months0 selOpt parts).1.processed,
      e.report_month ∈
        (filterMapping (discover_raw_partitions root parts).1 selOpt).map Prod.fst) ∧
    (∀ e ∈ (run_curated_build hash build root fsExists months0 selOpt parts).1.failed,
      e.report_month ∈
        (filterMapping (discover_raw_partitions root parts).1 selOpt).map Prod.fst) := by
  refine ⟨?_, rfl, filterMapping_some_keys mapping sel, rfl, ?_, ?_⟩
  · unfold monthsForCurated
    cases pm with
    | nil => exact absurd rfl hpm
    | cons a l => rfl
  · intro e he
    rcases (curatedLoop_touched_months hash build root fsExists _ _).1 e he with h | h
    · cases h
    · rcases List.mem_map.1 h with ⟨mp, hmp, hm⟩
      obtain ⟨m, rp⟩ := mp
      have := (sortedPairs_mem_keys _ _ _ hmp).1
      rw [← hm]
      exact this
  · intro e he
    rcases (curatedLoop_touched_months hash build root fsExists _ _).2.2 e he with h | h
    · cases h
    · rcases List.mem_map.1 h with ⟨mp, hmp, hm⟩
      obtain ⟨m, rp⟩ := mp
      have := (sortedPairs_mem_keys _ _ _ hmp).1
      rw [← hm]
      exact this

/-- C9 amended, witness: concrete instantiation with one processed month
`2024-01`, a filter containing it, and a one-month discovery. -/
theorem claim9_amended_witness :
    monthsForCurated ["2024-01"] = some ["2024-01"] ∧
    monthsForCurated [] = none ∧
    ((filterMapping [("2024-01", { dir_name := "report_month_2024-01", mtime := 0, content := "R" })]
        (some ["2024-01"])).map Prod.fst =
      ([("2024-01", ({ dir_name := "report_month_2024-01", mtime := 0, content := "R" } : RawParquet))].map
        Prod.fst).filter (fun m => ["2024-01"].contains m)) ∧
    filterMapping [("2024-01", { dir_name := "report_month_2024-01", mtime := 0, content := "R" })]
      none = [("2024-01", { dir_name := "report_month_2024-01", mtime := 0, content := "R" })] ∧
    (∀ e ∈ (run_curated_build (fun s => "H" ++ s) (fun _ => .ok 3) "out" (fun _ => false) []
        (some ["2024-01"])
        [{ dir_name := "report_month_2024-01", mtime := 0, content := "R" }]).1.processed,
      e.report_month ∈
        (filterMapping (discover_raw_partitions "out"
          [{ dir_name := "report_month_2024-01", mtime := 0, content := "R" }]).1
          (some ["2024-01"])).map Prod.fst) ∧
    (∀ e ∈ (run_curated_build (fun s => "H" ++ s) (fun _ => .ok 3) "out" (fun _ => false) []
        (some ["2024-01"])
        [{ dir_name := "report_month_2024-01", mtime := 0, content := "R" }]).1.failed,
      e.report_month ∈
        (filterMapping (discover_raw_partitions "out"
          [{ dir_name := "report_month_2024-01", mtime := 0, content := "R" }]).1
          (some ["2024-01"])).map Prod.fst) :=
  claim9_amended "out" [("2024-01", { dir_name := "report_month_2024-01", mtime := 0, content := "R" })]
    ["2024-01"] ["2024-01"] (fun s => "H" ++ s) (fun _ => .ok 3) (fun _ => false) []
    (some ["2024-01"]) [{ dir_name := "report_month_2024-01", mtime := 0, content := "R" }]
    (by decide)

/-! ## Discovery: equations and case analyses -/

theorem parseCandidates_eq (files : List SrcFile) :
    parseCandidates files =
      (files.filterMap (fun f =>
        match parse_report_month f.name with
        | .ok m => some { path := f.name, file_name := f.name, report_month := m,
                          mtime := f.mtime, content := f.content }
        | .error _ => none),
       files.filterMap (fun f =>
        match parse_report_month f.name with
        | .ok _ => none
        | .error e => some { file := f.name, reason := "invalid_report_month: " ++ e })) := by
  have aux : ∀ (l : List SrcFile) (acc : List Candidate × List Rejection),
      l.foldl (fun acc f =>
        match parse_report_month f.name with
        | .error e => (acc.1, acc.2 ++ [{ file := f.name, reason := "invalid_report_month: " ++ e }])
        | .ok month =>
            (acc.1 ++ [{ path := f.name, file_name := f.name, report_month := month,
                         mtime := f.mtime, content := f.content }], acc.2)) acc =
      (acc.1 ++ l.filterMap (fun f =>
        match parse_report_month f.name with
        | .ok m => some { path := f.name, file_name := f.name, report_month := m,
                          mtime := f.mtime, content := f.content }
        | .error _ => none),
       acc.2 ++ l.filterMap (fun f =>
        match parse_report_month f.name with
        | .ok _ => none
        | .error e => some { file := f.name, reason := "invalid_report_month: " ++ e })) := by
    intro l
    induction l with
    | nil => intro acc; simp
    | cons f l ih =>
        intro acc
        cases hp : parse_report_month f.name with
        | error e =>
            simp only [List.foldl_cons, hp, List.filterMap_cons, ih, List.append_assoc,
              List.singleton_append]
        | ok m =>
            simp only [List.foldl_cons, hp, List.filterMap_cons, ih, List.append_assoc,
              List.singleton_append]
  unfold parseCandidates
  rw [aux]
  simp

theorem dedupStep_cases (acc : List (String × Candidate) × List Rejection) (item : Candidate) :
    (alGet acc.1 item.report_month = none ∧
      dedupStep acc item = (alSet acc.1 item.report_month item, acc.2)) ∨
    (∃ existing, alGet acc.1 item.report_month = some existing ∧
      existing.mtime < item.mtime ∧
      dedupStep acc item = (alSet acc.1 item.report_month item,
        acc.2 ++ [{ file := existing.path,
                    reason := "duplicate_month_replaced_by_newer_file:" ++ item.file_name }])) ∨
    (∃ existing, alGet acc.1 item.report_month = some existing ∧
      ¬ existing.mtime < item.mtime ∧
      dedupStep acc item = (acc.1,
        acc.2 ++ [{ file := item.path,
                    reason := "duplicate_month_older_than:" ++ existing.file_name }])) := by
  cases halg : alGet acc.1 item.report_month with
  | none =>
      left
      exact ⟨rfl, by unfold dedupStep; rw [halg]⟩
  | some existing =>
      by_cases hm : existing.mtime < item.mtime
      · right; left
        refine ⟨existing, rfl, hm, ?_⟩
        unfold dedupStep
        rw [halg]
        simp [hm]
      · right; right
        refine ⟨existing, rfl, hm, ?_⟩
        unfold dedupStep
        rw [halg]
        simp [hm]

theorem dedup_skips_mono (cands : List Candidate)
    (acc : List (String × Candidate) × List Rejection) (r : Rejection) (hr : r ∈ acc.2) :
    r ∈ (cands.foldl dedupStep acc).2 := by
  refine foldl_invariant _ (fun a => r ∈ a.2) cands acc hr ?_
  intro a item _ ih
  rcases dedupStep_cases a item with ⟨_, heq⟩ | ⟨ex, _, _, heq⟩ | ⟨ex, _, _, heq⟩ <;>
    rw [heq] <;> simp [ih]

theorem curatedDiscoverStep_cases (root : String)
    (acc : List (String × RawParquet) × List Rejection) (rp : RawParquet) :
    (∃ e, parse_month_from_partition_dir rp.dir_name = .error e ∧
      curatedDiscoverStep root acc rp = acc) ∨
    (∃ month, parse_month_from_partition_dir rp.dir_name = .ok month ∧
      alGet acc.1 month = none ∧
      curatedDiscoverStep root acc rp = (alSet acc.1 month rp, acc.2)) ∨
    (∃ month cur, parse_month_from_partition_dir rp.dir_name = .ok month ∧
      alGet acc.1 month = some cur ∧ cur.mtime < rp.mtime ∧
      curatedDiscoverStep root acc rp = (alSet acc.1 month rp,
        acc.2 ++ [{ file := cur.path root,
                    reason := "duplicate_month_replaced_by_newer_file:sales_monthly_v1.parquet" }])) ∨
    (∃ month cur, parse_month_from_partition_dir rp.dir_name = .ok month ∧
      alGet acc.1 month = some cur ∧ ¬ cur.mtime < rp.mtime ∧
      curatedDiscoverStep root acc rp = (acc.1,
        acc.2 ++ [{ file := rp.path root,
                    reason := "duplicate_month_older_than:sales_monthly_v1.parquet" }])) := by
  cases hp : parse_month_from_partition_dir rp.dir_name with
  | error e =>
      left
      exact ⟨e, rfl, by unfold curatedDiscoverStep; rw [hp]⟩
  | ok month =>
      cases halg : alGet acc.1 month with
      | none =>
          right; left
          exact ⟨month, rfl, halg, by simp only [curatedDiscoverStep, hp, halg]⟩
      | some cur =>
          by_cases hm : cur.mtime < rp.mtime
          · right; right; left
            refine ⟨month, cur, rfl, halg, hm, ?_⟩
            simp only [curatedDiscoverStep, hp, halg]
            simp [hm]
          · right; right; right
            refine ⟨month, cur, rfl, halg, hm, ?_⟩
            simp only [curatedDiscoverStep, hp, halg]
            simp [hm]

/-! ## C6 — rejection-reason vocabulary -/

/-- Every rejection of raw-input discovery carries one of the three reason
shapes the code produces. -/
theorem discover_input_files_rejection_vocab (files : List SrcFile) :
    ∀ r ∈ (discover_input_files files).2,
      (∃ msg, r.reason = "invalid_report_month: " ++ msg) ∨
      (∃ nm, r.reason = "duplicate_month_replaced_by_newer_file:" ++ nm) ∨
      (∃ nm, r.reason = "duplicate_month_older_than:" ++ nm) := by
  intro r hr
  have hr2 : r ∈ ((parseCandidates (scanOrder files)).1.foldl dedupStep
      ([], (parseCandidates (scanOrder files)).2)).2 := hr
  have hstart : ∀ r2 ∈ (parseCandidates (scanOrder files)).2,
      ∃ msg, r2.reason = "invalid_report_month: " ++ msg := by
    intro r2 hr3
    rw [parseCandidates_eq] at hr3
    rcases List.mem_filterMap.1 hr3 with ⟨f, _, hf⟩
    cases hp : parse_report_month f.name with
    | ok m => rw [hp] at hf; cases hf
    | error e =>
        rw [hp] at hf
        simp only [Option.some.injEq] at hf
        exact ⟨e, by rw [← hf]⟩
  refine foldl_invariant dedupStep (fun a => ∀ r2 ∈ a.2,
      (∃ msg, r2.reason = "invalid_report_month: " ++ msg) ∨
      (∃ nm, r2.reason = "duplicate_month_replaced_by_newer_file:" ++ nm) ∨
      (∃ nm, r2.reason = "duplicate_month_older_than:" ++ nm))
    (parseCandidates (scanOrder files)).1 ([], (parseCandidates (scanOrder files)).2)
    (fun r2 hr3 => .inl (hstart r2 hr3)) ?_ r hr2
  intro a item _ ih r2 hr3
  rcases dedupStep_cases a item with ⟨_, heq⟩ | ⟨ex, _, _, heq⟩ | ⟨ex, _, _, heq⟩ <;>
    rw [heq] at hr3
  · exact ih r2 hr3
  · rcases List.mem_append.1 hr3 with h | h
    · exact ih r2 h
    · rw [List.mem_singleton.1 h]
      exact .inr (.inl ⟨item.file_name, rfl⟩)
  · rcases List.mem_append.1 hr3 with h | h
    · exact ih r2 h
    · rw [List.mem_singleton.1 h]
      exact .inr (.inr ⟨ex.file_name, rfl⟩)

/-- Every rejection of curated raw-partition discovery carries one of the two
duplicate reasons (the referenced file name is always the parquet basename). -/
theorem discover_raw_partitions_rejection_vocab (root : String) (parts : List RawParquet) :
    ∀ r ∈ (discover_raw_partitions root parts).2,
      r.reason = "duplicate_month_replaced_by_newer_file:sales_monthly_v1.parquet" ∨
      r.reason = "duplicate_month_older_than:sales_monthly_v1.parquet" := by
  unfold discover_raw_partitions
  refine foldl_invariant (curatedDiscoverStep root) (fun a => ∀ r ∈ a.2,
      r.reason = "duplicate_month_replaced_by_newer_file:sales_monthly_v1.parquet" ∨
      r.reason = "duplicate_month_older_than:sales_monthly_v1.parquet")
    _ ([], []) (fun r hr => by cases hr) ?_
  intro a rp _ ih r hr
  rcases curatedDiscoverStep_cases root a rp with
      ⟨e, _, heq⟩ | ⟨month, _, _, heq⟩ | ⟨month, cur, _, _, _, heq⟩ | ⟨month, cur, _, _, _, heq⟩ <;>
    rw [heq] at hr
  · exact ih r hr
  · exact ih r hr
  · rcases List.mem_append.1 hr with h | h
    · exact ih r h
    · rw [List.mem_singleton.1 h]
      exact .inl rfl
  · rcases List.mem_append.1 hr with h | h
    · exact ih r h
    · rw [List.mem_singleton.1 h]
      exact .inr rfl

/-- C6 counterexample: a candidate whose file name yields no partition key is
rejected with reason `invalid_report_month: Could not parse report month from
file name: foo.xlsx`, not with the exact reason `invalid_partition_key`
demanded by the claim. -/
theorem claim6_counterexample :
    (discover_input_files [{ name := "foo.xlsx", mtime := 0, content := "X" }]).2 =
      [{ file := "foo.xlsx",
         reason := "invalid_report_month: Could not parse report month from file name: foo.xlsx" }] ∧
    "invalid_report_month: Could not parse report month from file name: foo.xlsx" ≠
      "invalid_partition_key" := by
  exact ⟨by decide, by decide⟩

/-- C6 amended: the fixed rejection vocabulary of partition discovery is
`invalid_report_month: <message>` for a candidate whose file name yields no
partition key (the message naming the file), `duplicate_month_replaced_by_newer_file:<name>`
for a previously selected candidate superseded by a newer one, and
`duplicate_month_older_than:<name>` for a candidate that lost to an
already-selected newer one; curated raw-partition discovery uses the same two
duplicate reasons with the parquet basename. -/
theorem claim6_amended (files : List SrcFile) (root : String) (parts : List RawParquet)
    (f : SrcFile) (e : String) (hf : f ∈ scanOrder files)
    (he : parse_report_month f.name = .error e) :
    (∀ r ∈ (discover_input_files files).2,
      (∃ msg, r.reason = "invalid_report_month: " ++ msg) ∨
      (∃ nm, r.reason = "duplicate_month_replaced_by_newer_file:" ++ nm) ∨
      (∃ nm, r.reason = "duplicate_month_older_than:" ++ nm)) ∧
    { file := f.name, reason := "invalid_report_month: " ++ e } ∈ (discover_input_files files).2 ∧
    (∀ r ∈ (discover_raw_partitions root parts).2,
      r.reason = "duplicate_month_replaced_by_newer_file:sales_monthly_v1.parquet" ∨
      r.reason = "duplicate_month_older_than:sales_monthly_v1.parquet") := by
  refine ⟨discover_input_files_rejection_vocab files, ?_,
    discover_raw_partitions_rejection_vocab root parts⟩
  have hmem : { file := f.name, reason := "invalid_report_month: " ++ e } ∈
      (parseCandidates (scanOrder files)).2 := by
    rw [parseCandidates_eq]
    refine List.mem_filterMap.2 ⟨f, hf, ?_⟩
    rw [he]
  exact dedup_skips_mono _ _ _ hmem

/-- C6 amended, witness: a concrete scan with one unparseable name and a
one-month curated discovery. -/
theorem claim6_amended_witness :
    (∀ r ∈ (discover_input_files [{ name := "foo.xlsx", mtime := 0, content := "X" }]).2,
      (∃ msg, r.reason = "invalid_report_month: " ++ msg) ∨
      (∃ nm, r.reason = "duplicate_month_replaced_by_newer_file:" ++ nm) ∨
      (∃ nm, r.reason = "duplicate_month_older_than:" ++ nm)) ∧
    ({ file := "foo.xlsx",
       reason := "invalid_report_month: " ++
         "Could not parse report month from file name: foo.xlsx" } : Rejection) ∈
      (discover_input_files [{ name := "foo.xlsx", mtime := 0, content := "X" }]).2 ∧
    (∀ r ∈ (discover_raw_partitions "out"
        [{ dir_name := "report_month_2024-01", mtime := 0, content := "R" }]).2,
      r.reason = "duplicate_month_replaced_by_newer_file:sales_monthly_v1.parquet" ∨
      r.reason = "duplicate_month_older_than:sales_monthly_v1.parquet") :=
  claim6_amended [{ name := "foo.xlsx", mtime := 0, content := "X" }] "out"
    [{ dir_name := "report_month_2024-01", mtime := 0, content := "R" }]
    { name := "foo.xlsx", mtime := 0, content := "X" }
    "Could not parse report month from file name: foo.xlsx" (by decide) rfl

/-! ## C2 — the unchanged predicate of each stage -/

/-- C2 counterexample: the raw ingest stage skips a partition whose state
record matches the current fingerprint even though nothing checks that the
recorded parquet output still exists — `rawUnchanged` (like the code's
`previous.get("sha256") == checksum and previous.get("report_month") == ...`)
reads no filesystem information at all, so the skip happens whatever the
filesystem contains, in particular with the recorded output deleted.  The
curated stage, in contrast, does re-check existence: with every path absent it
reports changed even on a fingerprint match. -/
theorem claim2_counterexample :
    (rawRun (fun s => "H" ++ s) (fun _ => .ok 1) "out"
        [("sales_2024-01.xlsx",
          { file_name := "sales_2024-01.xlsx", report_month := "2024-01", sha256 := "HDATA",
            parquet_path := "out/raw/sales_monthly/v1/report_month_2024-01/sales_monthly_v1.parquet" })]
        [{ name := "sales_2024-01.xlsx", mtime := 5, content := "DATA" }]).1.unchanged =
      [{ file := "sales_2024-01.xlsx", report_month := "2024-01" }] ∧
    (rawRun (fun s => "H" ++ s) (fun _ => .ok 1) "out"
        [("sales_2024-01.xlsx",
          { file_name := "sales_2024-01.xlsx", report_month := "2024-01", sha256 := "HDATA",
            parquet_path := "out/raw/sales_monthly/v1/report_month_2024-01/sales_monthly_v1.parquet" })]
        [{ name := "sales_2024-01.xlsx", mtime := 5, content := "DATA" }]).1.processed = [] ∧
    curatedUnchanged
      [("2024-01",
        { raw_parquet_path := "rp", raw_sha256 := "HRAW",
          curated_parquet_path := "out/curated/2024-01.parquet" })]
      (fun _ => false) "2024-01" "HRAW" = false := by
  exact ⟨by decide, by decide, by decide⟩

/-- C2 amended: the curated stage classifies a month unchanged iff a state
record exists, its stored fingerprint equals the fresh fingerprint, and the
recorded curated output still exists (so a deleted output forces
reprocessing); the raw ingest stage classifies a file unchanged iff a state
record exists under its normalized path with matching fingerprint and
matching report month — with no check that the recorded output artifact still
exists. -/
theorem claim2_amended (hash : String → String) (ingest : Candidate → Except String Nat)
    (build : RawParquet → Except String Nat) (root : String)
    (files0 : List (String × FileRecord)) (months0 : List (String × MonthRecord))
    (fsExists : String → Bool) (c : Candidate) (m : String) (rp : RawParquet)
    (k checksum checksum2 month : String) :
    (curatedUnchanged months0 fsExists m checksum = true ↔
      ∃ prev, alGet months0 m = some prev ∧ prev.raw_sha256 = checksum ∧
        fsExists prev.curated_parquet_path = true) ∧
    (rawUnchanged files0 k checksum2 month = true ↔
      ∃ prev, alGet files0 k = some prev ∧ prev.sha256 = checksum2 ∧
        prev.report_month = month) ∧
    ((rawLoop hash ingest root
        { files := files0, processed := [], unchanged := [], failed := [], written := [] }
        [c]).unchanged ≠ [] ↔
      rawUnchanged files0 (keyOf c) (hash c.content) c.report_month = true) ∧
    ((curatedLoop hash build root fsExists
        { months := months0, processed := [], unchanged := [], failed := [], written := [] }
        [(m, rp)]).unchanged ≠ [] ↔
      curatedUnchanged months0 fsExists m (hash rp.content) = true) := by
  refine ⟨?_, ?_, ?_, ?_⟩
  · unfold curatedUnchanged
    cases halg : alGet months0 m with
    | none =>
        simp only [Bool.false_eq_true, false_iff]
        rintro ⟨prev, hprev, _⟩
        cases hprev
    | some prev =>
        simp only [Bool.and_eq_true, beq_iff_eq]
        constructor
        · rintro ⟨h1, h2⟩
          exact ⟨prev, rfl, h1, h2⟩
        · rintro ⟨prev2, hprev2, h1, h2⟩
          rw [Option.some.injEq] at hprev2
          rw [hprev2]
          exact ⟨h1, h2⟩
  · unfold rawUnchanged
    cases halg : alGet files0 k with
    | none =>
        simp only [Bool.false_eq_true, false_iff]
        rintro ⟨prev, hprev, _⟩
        cases hprev
    | some prev =>
        simp only [Bool.and_eq_true, beq_iff_eq]
        constructor
        · rintro ⟨h1, h2⟩
          exact ⟨prev, rfl, h1, h2⟩
        · rintro ⟨prev2, hprev2, h1, h2⟩
          rw [Option.some.injEq] at hprev2
          rw [hprev2]
          exact ⟨h1, h2⟩
  · rcases rawStep_cases hash ingest root
        { files := files0, processed := [], unchanged := [], failed := [], written := [] } c with
      ⟨hu, heq⟩ | ⟨hu, e2, _, heq⟩ | ⟨hu, rows, _, heq⟩ <;>
      rw [show rawLoop hash ingest root
          { files := files0, processed := [], unchanged := [], failed := [], written := [] } [c] =
          rawStep hash ingest root
            { files := files0, processed := [], unchanged := [], failed := [], written := [] } c
        from rfl, heq] <;> simp at hu <;> simp [keyOf, hu]
  · rcases curatedStep_cases hash build root fsExists
        { months := months0, processed := [], unchanged := [], failed := [], written := [] }
        (m, rp) with
      ⟨hu, heq⟩ | ⟨hu, e2, _, heq⟩ | ⟨hu, rows, _, heq⟩ <;>
      rw [show curatedLoop hash build root fsExists
          { months := months0, processed := [], unchanged := [], failed := [], written := [] }
          [(m, rp)] =
          curatedStep hash build root fsExists
            { months := months0, processed := [], unchanged := [], failed := [], written := [] }
            (m, rp)
        from rfl, heq] <;> simp at hu <;> simp [hu]

/-- C2 amended, witness: a concrete matching record with the output present
for the curated stage, and a concrete raw record. -/
theorem claim2_amended_witness :
    (curatedUnchanged
        [("2024-01",
          { raw_parquet_path := "rp", raw_sha256 := "HR", curated_parquet_path := "cp" })]
        (fun p => p == "cp") "2024-01" "HR" = true ↔
      ∃ prev,
        alGet
          [("2024-01",
            ({ raw_parquet_path := "rp", raw_sha256 := "HR",
               curated_parquet_path := "cp" } : MonthRecord))] "2024-01" = some prev ∧
        prev.raw_sha256 = "HR" ∧ (fun p => p == "cp") prev.curated_parquet_path = true) ∧
    (rawUnchanged
        [("a.xlsx",
          { file_name := "a.xlsx", report_month := "2024-01", sha256 := "HX",
            parquet_path := "pp" })] "a.xlsx" "HX" "2024-01" = true ↔
      ∃ prev,
        alGet
          [("a.xlsx",
            ({ file_name := "a.xlsx", report_month := "2024-01", sha256 := "HX",
               parquet_path := "pp" } : FileRecord))] "a.xlsx" = some prev ∧
        prev.sha256 = "HX" ∧ prev.report_month = "2024-01") ∧
    ((rawLoop (fun s => "H" ++ s) (fun _ => .ok 1) "out"
        { files :=
            [("a.xlsx",
              { file_name := "a.xlsx", report_month := "2024-01", sha256 := "HX",
                parquet_path := "pp" })],
          processed := [], unchanged := [], failed := [], written := [] }
        [{ path := "a.xlsx", file_name := "a.xlsx", report_month := "2024-01",
           mtime := 1, content := "X" }]).unchanged ≠ [] ↔
      rawUnchanged
        [("a.xlsx",
          { file_name := "a.xlsx", report_month := "2024-01", sha256 := "HX",
            parquet_path := "pp" })]
        (keyOf
          { path := "a.xlsx", file_name := "a.xlsx", report_month := "2024-01",
            mtime := 1, content := "X" })
        ((fun s => "H" ++ s) "X") "2024-01" = true) ∧
    ((curatedLoop (fun s => "H" ++ s) (fun _ => .ok 1) "out" (fun p => p == "cp")
        { months :=
            [("2024-01",
              { raw_parquet_path := "rp", raw_sha256 := "HR", curated_parquet_path := "cp" })],
          processed := [], unchanged := [], failed := [], written := [] }
        [("2024-01",
          { dir_name := "report_month_2024-01", mtime := 0, content := "R" })]).unchanged ≠ [] ↔
      curatedUnchanged
        [("2024-01",
          { raw_parquet_path := "rp", raw_sha256 := "HR", curated_parquet_path := "cp" })]
        (fun p => p == "cp") "2024-01" ((fun s => "H" ++ s) "R") = true) :=
  claim2_amended (fun s => "H" ++ s) (fun _ => .ok 1) (fun _ => .ok 1) "out"
    [("a.xlsx",
      { file_name := "a.xlsx", report_month := "2024-01", sha256 := "HX",
        parquet_path := "pp" })]
    [("2024-01",
      { raw_parquet_path := "rp", raw_sha256 := "HR", curated_parquet_path := "cp" })]
    (fun p => p == "cp")
    { path := "a.xlsx", file_name := "a.xlsx", report_month := "2024-01",
      mtime := 1, content := "X" }
    "2024-01"
    { dir_name := "report_month_2024-01", mtime := 0, content := "R" }
    "a.xlsx" "HR" "HX" "2024-01"

/-! ## C7 — state-record keying -/

theorem count_key_of_nodup {α : Type} (l : List (String × α)) (k : String) (v : α)
    (hnodup : (l.map Prod.fst).Nodup) (h : alGet l k = some v) :
    (l.filter (fun kv => kv.1 == k)).length = 1 := by
  induction l with
  | nil => cases h
  | cons hd tl ih =>
      obtain ⟨k2, v2⟩ := hd
      simp only [List.map_cons, List.nodup_cons] at hnodup
      by_cases hk : k2 = k
      · subst hk
        have htl : tl.filter (fun kv => kv.1 == k2) = [] := by
          rw [List.filter_eq_nil_iff]
          intro kv hkv
          simp only [beq_iff_eq]
          intro heq
          exact hnodup.1 (heq ▸ List.mem_map.2 ⟨kv, hkv, rfl⟩)
        simp [List.filter_cons, htl]
      · have h2 : alGet tl k = some v := by
          simpa [alGet, hk] using h
        simpa [List.filter_cons, hk] using ih hnodup.2 h2

theorem rawLoop_keys_nodup (hash : String → String) (ingest : Candidate → Except String Nat)
    (root : String) (cs : List Candidate) (acc : RawAcc)
    (hnodup : (acc.files.map Prod.fst).Nodup) :
    ((rawLoop hash ingest root acc cs).files.map Prod.fst).Nodup := by
  refine foldl_invariant _ (fun a => ((a.files.map Prod.fst).Nodup)) cs acc hnodup ?_
  intro a c _ ih
  rcases rawStep_cases hash ingest root a c with ⟨_, heq⟩ | ⟨_, e2, _, heq⟩ | ⟨_, rows, _, heq⟩ <;>
    rw [heq]
  · exact ih
  · exact ih
  · exact alSet_keys_nodup _ _ _ ih

/-- C7 counterexample: the raw State Store is keyed by normalized file path,
not by partition key: starting from a state holding the record of
`sales_2024-03_v1.xlsx` (month `2024-03`), successfully ingesting a different
file `sales_2024-03_v2.xlsx` of the same month leaves two State Records whose
`report_month` is `2024-03`. -/
theorem claim7_counterexample :
    ((rawRun (fun s => "h" ++ s) (fun _ => .ok 2) "out"
        [("sales_2024-03_v1.xlsx",
          { file_name := "sales_2024-03_v1.xlsx", report_month := "2024-03",
            sha256 := "H1", parquet_path := "p1" })]
        [{ name := "sales_2024-03_v2.xlsx", mtime := 9, content := "V2" }]).1.files.filter
      (fun kv => kv.2.report_month == "2024-03")).length = 2 := by
  decide

/-- C7 amended: the raw State Store holds at most one record per normalized
file path (never per partition key): the per-file upsert keeps the key set
duplicate-free across any run, and after two successive successful ingests of
the same path the store holds exactly one record for that path, carrying the
last winning artifact's fingerprint and output location. -/
theorem claim7_amended (hash : String → String) (ingest : Candidate → Except String Nat)
    (root : String) (files0 : List (String × FileRecord)) (c1 c2 : Candidate)
    (rows1 rows2 : Nat)
    (hnodup : (files0.map Prod.fst).Nodup)
    (hpath : c2.path = c1.path)
    (hok1 : ingest c1 = .ok rows1) (hok2 : ingest c2 = .ok rows2)
    (hns1 : rawUnchanged files0 (keyOf c1) (hash c1.content) c1.report_month = false)
    (hdiff : hash c2.content ≠ hash c1.content) :
    (∀ cs, ((rawLoop hash ingest root
        { files := files0, processed := [], unchanged := [], failed := [], written := [] }
        cs).files.map Prod.fst).Nodup) ∧
    alGet (rawLoop hash ingest root
        { files := (rawLoop hash ingest root
            { files := files0, processed := [], unchanged := [], failed := [], written := [] }
            [c1]).files,
          processed := [], unchanged := [], failed := [], written := [] }
        [c2]).files (keyOf c1) =
      some { file_name := c2.file_name, report_month := c2.report_month,
             sha256 := hash c2.content, parquet_path := rawOutputPath root c2.report_month } ∧
    ((rawLoop hash ingest root
        { files := (rawLoop hash ingest root
            { files := files0, processed := [], unchanged := [], failed := [], written := [] }
            [c1]).files,
          processed := [], unchanged := [], failed := [], written := [] }
        [c2]).files.filter (fun kv => kv.1 == keyOf c1)).length = 1 := by
  have hkey : keyOf c2 = keyOf c1 := by
    unfold keyOf normalize_state_path_key
    rw [hpath]
  have hstep1 : (rawLoop hash ingest root
      { files := files0, processed := [], unchanged := [], failed := [], written := [] }
      [c1]).files =
      alSet files0 (keyOf c1)
        { file_name := c1.file_name, report_month := c1.report_month,
          sha256 := hash c1.content, parquet_path := rawOutputPath root c1.report_month } := by
    rcases rawStep_cases hash ingest root
        { files := files0, processed := [], unchanged := [], failed := [], written := [] } c1 with
      ⟨hu, heq⟩ | ⟨hu, e2, he, heq⟩ | ⟨hu, rows, he, heq⟩
    · have hu2 : rawUnchanged files0 (keyOf c1) (hash c1.content) c1.report_month = true := hu
      rw [hns1] at hu2
      cases hu2
    · rw [hok1] at he
      cases he
    · rw [hok1] at he
      have hloop : rawLoop hash ingest root
          { files := files0, processed := [], unchanged := [], failed := [], written := [] }
          [c1] =
          rawStep hash ingest root
            { files := files0, processed := [], unchanged := [], failed := [], written := [] }
            c1 := rfl
      rw [hloop, heq]
      rfl
  have hprev1 : alGet (rawLoop hash ingest root
      { files := files0, processed := [], unchanged := [], failed := [], written := [] }
      [c1]).files (keyOf c1) =
      some { file_name := c1.file_name, report_month := c1.report_month,
             sha256 := hash c1.content, parquet_path := rawOutputPath root c1.report_month } := by
    rw [hstep1]
    exact alGet_alSet_self _ _ _
  have hns2 : rawUnchanged (rawLoop hash ingest root
      { files := files0, processed := [], unchanged := [], failed := [], written := [] }
      [c1]).files (keyOf c2) (hash c2.content) c2.report_month = false := by
    rw [hkey]
    have hbeq :
        (({ file_name := c1.file_name, report_month := c1.report_month,
            sha256 := hash c1.content,
            parquet_path := rawOutputPath root c1.report_month } : FileRecord).sha256 ==
          hash c2.content) = false := by
      simp only [beq_eq_false_iff_ne, ne_eq]
      intro hcon
      exact hdiff hcon.symm
    simp only [rawUnchanged, hprev1, hbeq, Bool.false_and]
  have hstep2 : (rawLoop hash ingest root
      { files := (rawLoop hash ingest root
          { files := files0, processed := [], unchanged := [], failed := [], written := [] }
          [c1]).files,
        processed := [], unchanged := [], failed := [], written := [] }
      [c2]).files =
      alSet (rawLoop hash ingest root
          { files := files0, processed := [], unchanged := [], failed := [], written := [] }
          [c1]).files (keyOf c2)
        { file_name := c2.file_name, report_month := c2.report_month,
          sha256 := hash c2.content, parquet_path := rawOutputPath root c2.report_month } := by
    rcases rawStep_cases hash ingest root
        { files := (rawLoop hash ingest root
            { files := files0, processed := [], unchanged := [], failed := [], written := [] }
            [c1]).files,
          processed := [], unchanged := [], failed := [], written := [] } c2 with
      ⟨hu, heq⟩ | ⟨hu, e2, he, heq⟩ | ⟨hu, rows, he, heq⟩
    · have hu2 : rawUnchanged (rawLoop hash ingest root
          { files := files0, processed := [], unchanged := [], failed := [], written := [] }
          [c1]).files (keyOf c2) (hash c2.content) c2.report_month = true := hu
      rw [hns2] at hu2
      cases hu2
    · rw [hok2] at he
      cases he
    · rw [hok2] at he
      have hloop : rawLoop hash ingest root
          { files := (rawLoop hash ingest root
              { files := files0, processed := [], unchanged := [], failed := [], written := [] }
              [c1]).files,
            processed := [], unchanged := [], failed := [], written := [] }
          [c2] =
          rawStep hash ingest root
            { files := (rawLoop hash ingest root
                { files := files0, processed := [], unchanged := [], failed := [], written := [] }
                [c1]).files,
              processed := [], unchanged := [], failed := [], written := [] }
            c2 := rfl
      rw [hloop, heq]
      rfl
  have hnodup2 : (((rawLoop hash ingest root
      { files := (rawLoop hash ingest root
          { files := files0, processed := [], unchanged := [], failed := [], written := [] }
          [c1]).files,
        processed := [], unchanged := [], failed := [], written := [] }
      [c2]).files.map Prod.fst)).Nodup := by
    rw [hstep2, hstep1]
    exact alSet_keys_nodup _ _ _ (alSet_keys_nodup _ _ _ hnodup)
  have hget2 : alGet (rawLoop hash ingest root
      { files := (rawLoop hash ingest root
          { files := files0, processed := [], unchanged := [], failed := [], written := [] }
          [c1]).files,
        processed := [], unchanged := [], failed := [], written := [] }
      [c2]).files (keyOf c1) =
      some { file_name := c2.file_name, report_month := c2.report_month,
             sha256 := hash c2.content, parquet_path := rawOutputPath root c2.report_month } := by
    rw [hstep2, ← hkey]
    exact alGet_alSet_self _ _ _
  refine ⟨?_, hget2, count_key_of_nodup _ _ _ hnodup2 hget2⟩
  intro cs
  exact rawLoop_keys_nodup hash ingest root cs _ hnodup

/-- C7 amended, witness: two successive runs ingest `v.xlsx` with different
contents; the state keeps exactly one record for the path, with the second
fingerprint. -/
theorem claim7_amended_witness :
    (∀ cs, ((rawLoop (fun s => "h" ++ s)
        (fun c => .ok (if c.content == "A" then 1 else 2)) "out"
        { files := [], processed := [], unchanged := [], failed := [], written := [] }
        cs).files.map Prod.fst).Nodup) ∧
    alGet (rawLoop (fun s => "h" ++ s) (fun c => .ok (if c.content == "A" then 1 else 2)) "out"
        { files := (rawLoop (fun s => "h" ++ s)
            (fun c => .ok (if c.content == "A" then 1 else 2)) "out"
            { files := [], processed := [], unchanged := [], failed := [], written := [] }
            [{ path := "v.xlsx", file_name := "v.xlsx", report_month := "2024-03",
               mtime := 1, content := "A" }]).files,
          processed := [], unchanged := [], failed := [], written := [] }
        [{ path := "v.xlsx", file_name := "v.xlsx", report_month := "2024-03",
           mtime := 2, content := "B" }]).files
      (keyOf { path := "v.xlsx", file_name := "v.xlsx", report_month := "2024-03",
               mtime := 1, content := "A" }) =
      some { file_name := "v.xlsx", report_month := "2024-03",
             sha256 := (fun s => "h" ++ s) "B", parquet_path := rawOutputPath "out" "2024-03" } ∧
    ((rawLoop (fun s => "h" ++ s) (fun c => .ok (if c.content == "A" then 1 else 2)) "out"
        { files := (rawLoop (fun s => "h" ++ s)
            (fun c => .ok (if c.content == "A" then 1 else 2)) "out"
            { files := [], processed := [], unchanged := [], failed := [], written := [] }
            [{ path := "v.xlsx", file_name := "v.xlsx", report_month := "2024-03",
               mtime := 1, content := "A" }]).files,
          processed := [], unchanged := [], failed := [], written := [] }
        [{ path := "v.xlsx", file_name := "v.xlsx", report_month := "2024-03",
           mtime := 2, content := "B" }]).files.filter
      (fun kv => kv.1 ==
        keyOf { path := "v.xlsx", file_name := "v.xlsx",
                report_month := "2024-03", mtime := 1, content := "A" })).length = 1 := by
  have h := claim7_amended (fun s => "h" ++ s)
    (fun c => .ok (if c.content == "A" then 1 else 2)) "out" []
    { path := "v.xlsx", file_name := "v.xlsx", report_month := "2024-03",
      mtime := 1, content := "A" }
    { path := "v.xlsx", file_name := "v.xlsx", report_month := "2024-03",
      mtime := 2, content := "B" }
    1 2 (by decide) rfl rfl rfl (by decide) (by decide)
  exact h

/-! ## C5 — duplicate resolution -/

theorem foldWinner_none_cons (c : Candidate) (l : List Candidate) :
    foldWinner none (c :: l) = foldWinner (some c) l := rfl

theorem foldWinner_some_cons (w c : Candidate) (l : List Candidate) :
    foldWinner (some w) (c :: l) =
      foldWinner (some (if w.mtime < c.mtime then c else w)) l := rfl

/-- The dedup fold keeps, per month, exactly the running maximum-by-mtime
(ties to the incumbent) of the month's candidates in scan order. -/
theorem dedup_byMonth (cands : List Candidate) (bm : List (String × Candidate))
    (sk : List Rejection) (m : String) :
    alGet (cands.foldl dedupStep (bm, sk)).1 m =
      foldWinner (alGet bm m) (cands.filter (fun c => c.report_month == m)) := by
  induction cands generalizing bm sk with
  | nil => simp [foldWinner]
  | cons c cs ih =>
      rw [List.foldl_cons]
      by_cases hcm : c.report_month = m
      · rw [List.filter_cons, if_pos (show (c.report_month == m) = true by simp [hcm])]
        rcases dedupStep_cases (bm, sk) c with
          ⟨halg, heq⟩ | ⟨ex, halg, hlt, heq⟩ | ⟨ex, halg, hnlt, heq⟩ <;> rw [heq]
        · rw [ih (alSet bm c.report_month c) sk]
          rw [hcm] at halg
          rw [halg, foldWinner_none_cons, hcm, alGet_alSet_self]
        · rw [ih (alSet bm c.report_month c) _]
          rw [hcm] at halg
          rw [halg, foldWinner_some_cons, if_pos hlt, hcm, alGet_alSet_self]
        · rw [ih bm _]
          rw [hcm] at halg
          rw [halg, foldWinner_some_cons, if_neg hnlt]
      · rw [List.filter_cons, if_neg (show ¬ ((c.report_month == m) = true) by simp [hcm])]
        rcases dedupStep_cases (bm, sk) c with
          ⟨halg, heq⟩ | ⟨ex, halg, hlt, heq⟩ | ⟨ex, halg, hnlt, heq⟩ <;> rw [heq]
        · rw [ih (alSet bm c.report_month c) sk, alGet_alSet_ne bm c.report_month m c hcm]
        · rw [ih (alSet bm c.report_month c) _, alGet_alSet_ne bm c.report_month m c hcm]
        · rw [ih bm _]

theorem foldWinner_split (l : List Candidate) (w0 w : Candidate)
    (h : foldWinner (some w0) l = some w) :
    ∃ pre post, w0 :: l = pre ++ w :: post ∧
      (∀ c ∈ pre, c.mtime < w.mtime) ∧ (∀ c ∈ post, c.mtime ≤ w.mtime) := by
  induction l generalizing w0 with
  | nil =>
      simp only [foldWinner, Option.some.injEq] at h
      exact ⟨[], [], by simp [h], by simp, by simp⟩
  | cons c cs ih =>
      rw [foldWinner_some_cons] at h
      by_cases hlt : w0.mtime < c.mtime
      · rw [if_pos hlt] at h
        rcases ih c h with ⟨pre, post, hsplit, hpre, hpost⟩
        cases pre with
        | nil =>
            rw [List.nil_append] at hsplit
            injection hsplit with h1 h2
            refine ⟨[w0], post, ?_, ?_, hpost⟩
            · rw [List.singleton_append, h1, h2]
            · intro x hx
              rw [List.mem_singleton.1 hx, ← h1]
              exact hlt
        | cons p pre2 =>
            rw [List.cons_append] at hsplit
            injection hsplit with h1 h2
            refine ⟨w0 :: c :: pre2, post, ?_, ?_, hpost⟩
            · rw [List.cons_append, List.cons_append, h2]
            · intro x hx
              have hcw : c.mtime < w.mtime := by
                rw [h1]
                exact hpre p (by simp)
              rcases List.mem_cons.1 hx with rfl | hx
              · exact lt_trans hlt hcw
              · rcases List.mem_cons.1 hx with rfl | hx
                · exact hcw
                · exact hpre x (by simp [hx])
      · rw [if_neg hlt] at h
        rcases ih w0 h with ⟨pre, post, hsplit, hpre, hpost⟩
        cases pre with
        | nil =>
            rw [List.nil_append] at hsplit
            injection hsplit with h1 h2
            refine ⟨[], c :: cs, by rw [List.nil_append, h1], by simp, ?_⟩
            intro x hx
            rcases List.mem_cons.1 hx with rfl | hx
            · rw [← h1]
              exact le_of_not_lt hlt
            · rw [h2] at hx
              exact hpost x hx
        | cons p pre2 =>
            rw [List.cons_append] at hsplit
            injection hsplit with h1 h2
            refine ⟨w0 :: c :: pre2, post, ?_, ?_, hpost⟩
            · rw [List.cons_append, List.cons_append, h2]
            · intro x hx
              have hww : w0.mtime < w.mtime := by
                rw [h1]
                exact hpre p (by simp)
              rcases List.mem_cons.1 hx with rfl | hx
              · exact hww
              · rcases List.mem_cons.1 hx with rfl | hx
                · exact lt_of_le_of_lt (le_of_not_lt hlt) hww
                · exact hpre x (by simp [hx])

theorem foldWinner_none_split (l : List Candidate) (w : Candidate)
    (h : foldWinner none l = some w) :
    ∃ pre post, l = pre ++ w :: post ∧ (∀ c ∈ pre, c.mtime < w.mtime) ∧
      (∀ c ∈ post, c.mtime ≤ w.mtime) := by
  cases l with
  | nil => cases h
  | cons c cs => exact foldWinner_split cs c w h

theorem dedupStep_preserves_tracked (acc : List (String × Candidate) × List Rejection)
    (item c : Candidate)
    (h : alGet acc.1 c.report_month = some c ∨ ∃ r ∈ acc.2, r.file = c.path) :
    alGet (dedupStep acc item).1 c.report_month = some c ∨
      ∃ r ∈ (dedupStep acc item).2, r.file = c.path := by
  rcases dedupStep_cases acc item with
    ⟨halg, heq⟩ | ⟨ex, halg, hlt, heq⟩ | ⟨ex, halg, hnlt, heq⟩ <;> rw [heq] <;> dsimp only
  · rcases h with h | h
    · by_cases hm : item.report_month = c.report_month
      · rw [hm, h] at halg
        cases halg
      · left
        rw [alGet_alSet_ne _ _ _ _ hm]
        exact h
    · right
      exact h
  · rcases h with h | h
    · by_cases hm : item.report_month = c.report_month
      · have hex : ex = c := by
          rw [hm, h] at halg
          injection halg with h2
          exact h2.symm
        right
        refine ⟨{ file := ex.path,
                  reason := "duplicate_month_replaced_by_newer_file:" ++ item.file_name },
          by simp, ?_⟩
        rw [hex]
      · left
        rw [alGet_alSet_ne _ _ _ _ hm]
        exact h
    · right
      rcases h with ⟨r, hr, hf⟩
      exact ⟨r, by simp [hr], hf⟩
  · rcases h with h | h
    · left
      exact h
    · right
      rcases h with ⟨r, hr, hf⟩
      exact ⟨r, by simp [hr], hf⟩

/-- Every candidate entering the dedup fold ends up either as its month's
selected winner or rejected (with its path in the rejection list). -/
theorem dedup_tracks (cands : List Candidate) (bm : List (String × Candidate))
    (sk : List Rejection) (c : Candidate) (hc : c ∈ cands) :
    alGet ((cands.foldl dedupStep (bm, sk)).1) c.report_month = some c ∨
      ∃ r ∈ (cands.foldl dedupStep (bm, sk)).2, r.file = c.path := by
  induction cands generalizing bm sk with
  | nil => cases hc
  | cons d cs ih =>
      rw [List.foldl_cons]
      rcases List.mem_cons.1 hc with rfl | hc
      · have hstep : alGet (dedupStep (bm, sk) c).1 c.report_month = some c ∨
            ∃ r ∈ (dedupStep (bm, sk) c).2, r.file = c.path := by
          rcases dedupStep_cases (bm, sk) c with
            ⟨halg, heq⟩ | ⟨ex, halg, hlt, heq⟩ | ⟨ex, halg, hnlt, heq⟩ <;> rw [heq]
          · left
            exact alGet_alSet_self _ _ _
          · left
            exact alGet_alSet_self _ _ _
          · right
            exact ⟨{ file := c.path,
                     reason := "duplicate_month_older_than:" ++ ex.file_name }, by simp, rfl⟩
        exact foldl_invariant dedupStep
          (fun acc => alGet acc.1 c.report_month = some c ∨ ∃ r ∈ acc.2, r.file = c.path)
          cs _ hstep (fun acc item _ hP => dedupStep_preserves_tracked acc item c hP)
      · exact ih _ _ hc

theorem dedup_months_stored (cands : List Candidate) (bm : List (String × Candidate))
    (sk : List Rejection)
    (h0 : ∀ k c, alGet bm k = some c → c.report_month = k) :
    ∀ k c, alGet ((cands.foldl dedupStep (bm, sk)).1) k = some c → c.report_month = k := by
  refine foldl_invariant dedupStep
    (fun acc => ∀ k c, alGet acc.1 k = some c → c.report_month = k) cands (bm, sk) h0 ?_
  intro acc item _ ih k c hget
  rcases dedupStep_cases acc item with
    ⟨halg, heq⟩ | ⟨ex, halg, hlt, heq⟩ | ⟨ex, halg, hnlt, heq⟩ <;> rw [heq] at hget
  · by_cases hk : item.report_month = k
    · subst hk
      rw [alGet_alSet_self] at hget
      injection hget with h2
      rw [← h2]
    · rw [alGet_alSet_ne _ _ _ _ hk] at hget
      exact ih k c hget
  · by_cases hk : item.report_month = k
    · subst hk
      rw [alGet_alSet_self] at hget
      injection hget with h2
      rw [← h2]
    · rw [alGet_alSet_ne _ _ _ _ hk] at hget
      exact ih k c hget
  · exact ih k c hget

theorem mem_sortedValues (bm : List (String × Candidate)) (w : Candidate)
    (h : w ∈ sortedValues bm) : ∃ m, alGet bm m = some w := by
  unfold sortedValues at h
  rcases List.mem_filterMap.1 h with ⟨m, _, hm⟩
  exact ⟨m, hm⟩

/-- C5: for every winner selected by discovery, the scan-ordered candidates of
its month split into a strictly-older prefix, the winner, and a
no-strictly-newer suffix — so the winner has the latest modification time and,
among equal times, the earliest position in the lexicographically sorted scan
order — and every other candidate of that month lands in the rejection
list. -/
theorem claim5_duplicate_tiebreak (files : List SrcFile) (w : Candidate)
    (hw : w ∈ (discover_input_files files).1) :
    ∃ pre post,
      monthScan w.report_month files = pre ++ w :: post ∧
      (∀ c ∈ pre, c.mtime < w.mtime) ∧
      (∀ c ∈ post, c.mtime ≤ w.mtime) ∧
      (∀ c ∈ monthScan w.report_month files,
        c = w ∨ ∃ r ∈ (discover_input_files files).2, r.file = c.path) := by
  have hw2 : ∃ m, alGet (((parseCandidates (scanOrder files)).1.foldl dedupStep
      ([], (parseCandidates (scanOrder files)).2)).1) m = some w :=
    mem_sortedValues _ _ hw
  rcases hw2 with ⟨m, hm⟩
  have hmonth : w.report_month = m :=
    dedup_months_stored _ _ _ (fun k c h => by cases h) m w hm
  rw [← hmonth] at hm
  have hwinner : foldWinner none (monthScan w.report_month files) = some w := by
    have := dedup_byMonth (parseCandidates (scanOrder files)).1 []
      (parseCandidates (scanOrder files)).2 w.report_month
    rw [this] at hm
    exact hm
  rcases foldWinner_none_split _ _ hwinner with ⟨pre, post, hsplit, hpre, hpost⟩
  refine ⟨pre, post, hsplit, hpre, hpost, ?_⟩
  intro c hc
  have hcm : c.report_month = w.report_month := by
    have := List.of_mem_filter hc
    simpa using this
  have htr := dedup_tracks (parseCandidates (scanOrder files)).1 []
    (parseCandidates (scanOrder files)).2 c (List.mem_of_mem_filter hc)
  rcases htr with h | h
  · left
    rw [hcm] at h
    rw [h] at hm
    injection hm
  · right
    exact h

/-- C5 witness: two candidates for `2024-03` with equal modification times;
the lexicographically earlier file wins the tie and the split pins it as the
selected winner with the other candidate rejected. -/
theorem claim5_witness :
    ∃ pre post,
      monthScan
        ({ path := "a_2024-03.xlsx", file_name := "a_2024-03.xlsx",
           report_month := "2024-03", mtime := 5, content := "A" } : Candidate).report_month
        [{ name := "b_2024-03.xlsx", mtime := 5, content := "B" },
         { name := "a_2024-03.xlsx", mtime := 5, content := "A" }] =
        pre ++
          ({ path := "a_2024-03.xlsx", file_name := "a_2024-03.xlsx",
             report_month := "2024-03", mtime := 5, content := "A" } : Candidate) :: post ∧
      (∀ c ∈ pre, c.mtime <
        ({ path := "a_2024-03.xlsx", file_name := "a_2024-03.xlsx",
           report_month := "2024-03", mtime := 5, content := "A" } : Candidate).mtime) ∧
      (∀ c ∈ post, c.mtime ≤
        ({ path := "a_2024-03.xlsx", file_name := "a_2024-03.xlsx",
           report_month := "2024-03", mtime := 5, content := "A" } : Candidate).mtime) ∧
      (∀ c ∈ monthScan
        ({ path := "a_2024-03.xlsx", file_name := "a_2024-03.xlsx",
           report_month := "2024-03", mtime := 5, content := "A" } : Candidate).report_month
        [{ name := "b_2024-03.xlsx", mtime := 5, content := "B" },
         { name := "a_2024-03.xlsx", mtime := 5, content := "A" }],
        c = { path := "a_2024-03.xlsx", file_name := "a_2024-03.xlsx",
              report_month := "2024-03", mtime := 5, content := "A" } ∨
        ∃ r ∈ (discover_input_files
          [{ name := "b_2024-03.xlsx", mtime := 5, content := "B" },
           { name := "a_2024-03.xlsx", mtime := 5, content := "A" }]).2, r.file = c.path) :=
  claim5_duplicate_tiebreak
    [{ name := "b_2024-03.xlsx", mtime := 5, content := "B" },
     { name := "a_2024-03.xlsx", mtime := 5, content := "A" }]
    { path := "a_2024-03.xlsx", file_name := "a_2024-03.xlsx",
      report_month := "2024-03", mtime := 5, content := "A" }
    (by decide)

/-! ## C1 — per-partition failure isolation in the ingest orchestrator -/

theorem rawUnchanged_congr (f1 f2 : List (String × FileRecord)) (k ch m : String)
    (h : alGet f1 k = alGet f2 k) : rawUnchanged f1 k ch m = rawUnchanged f2 k ch m := by
  unfold rawUnchanged
  rw [h]

theorem rawLoop_failure_core (hash : String → String) (ingest : Candidate → Except String Nat)
    (root : String) (c : Candidate) (e : String) (hfail : ingest c = .error e) :
    ∀ (cs : List Candidate) (acc : RawAcc), c ∈ cs →
      (cs.map keyOf).Nodup →
      rawUnchanged acc.files (keyOf c) (hash c.content) c.report_month = false →
      (({ file := c.path, report_month := c.report_month, error := e } : FailedEntry) ∈
          (rawLoop hash ingest root acc cs).failed ∧
        alGet (rawLoop hash ingest root acc cs).files (keyOf c) = alGet acc.files (keyOf c)) := by
  intro cs
  induction cs with
  | nil =>
      intro acc hc
      cases hc
  | cons d cs ih =>
      intro acc hc hnodup hns
      rw [List.map_cons, List.nodup_cons] at hnodup
      rcases List.mem_cons.1 hc with rfl | hc
      · have hstep : rawStep hash ingest root acc c =
            { acc with failed := acc.failed ++
                [{ file := c.path, report_month := c.report_month, error := e }] } := by
          rcases rawStep_cases hash ingest root acc c with
            ⟨hu, heq⟩ | ⟨hu, e2, he, heq⟩ | ⟨hu, rows, he, heq⟩
          · have hu2 : rawUnchanged acc.files (keyOf c) (hash c.content)
                c.report_month = true := hu
            rw [hns] at hu2
            cases hu2
          · rw [hfail] at he
            injection he with he2
            rw [heq, he2]
          · rw [hfail] at he
            cases he
        have hkeys2 : ∀ c2 ∈ cs, keyOf c2 ≠ keyOf c := by
          intro c2 h2 heq2
          exact hnodup.1 (heq2 ▸ List.mem_map.2 ⟨c2, h2, rfl⟩)
        rw [rawLoop_cons, hstep]
        constructor
        · exact rawLoop_failed_mono hash ingest root cs _ _ (by simp)
        · rw [rawLoop_files_preserve hash ingest root cs _ _ hkeys2]
      · have hkd : keyOf d ≠ keyOf c := by
          intro he2
          exact hnodup.1 (he2 ▸ List.mem_map.2 ⟨c, hc, rfl⟩)
        have hpres := rawStep_files_preserve hash ingest root acc d (keyOf c) hkd
        have hns2 : rawUnchanged (rawStep hash ingest root acc d).files (keyOf c)
            (hash c.content) c.report_month = false := by
          rw [rawUnchanged_congr _ acc.files _ _ _ hpres]
          exact hns
        rw [rawLoop_cons]
        rcases ih (rawStep hash ingest root acc d) hc hnodup.2 hns2 with ⟨h1, h2⟩
        exact ⟨h1, by rw [h2, hpres]⟩

theorem mem_ne_nil {α : Type} (l : List α) (x : α) (h : x ∈ l) : l.isEmpty = false := by
  cases l with
  | nil => cases h
  | cons a l => rfl


/-! ## C4 — second-run idempotence -/

/-- After a run whose failed list is empty, every discovered candidate's state
entry matches its current fingerprint and month. -/
theorem rawLoop_establishes (hash : String → String) (ingest : Candidate → Except String Nat)
    (root : String) (cs : List Candidate) (acc : RawAcc)
    (hnodup : (cs.map keyOf).Nodup)
    (hfe : (rawLoop hash ingest root acc cs).failed = []) :
    ∀ c ∈ cs, rawUnchanged (rawLoop hash ingest root acc cs).files (keyOf c)
      (hash c.content) c.report_month = true := by
  induction cs generalizing acc with
  | nil =>
      intro c hc
      cases hc
  | cons d cs ih =>
      rw [List.map_cons, List.nodup_cons] at hnodup
      intro c hc
      rw [rawLoop_cons] at hfe ⊢
      rcases List.mem_cons.1 hc with rfl | hc
      · have hkeys2 : ∀ c2 ∈ cs, keyOf c2 ≠ keyOf c := by
          intro c2 h2 heq2
          exact hnodup.1 (heq2 ▸ List.mem_map.2 ⟨c2, h2, rfl⟩)
        have hpres := rawLoop_files_preserve hash ingest root cs
          (rawStep hash ingest root acc c) (keyOf c) hkeys2
        rw [rawUnchanged_congr _ _ _ _ _ hpres]
        rcases rawStep_cases hash ingest root acc c with
          ⟨hu, heq⟩ | ⟨hu, e2, he, heq⟩ | ⟨hu, rows, he, heq⟩
        · rw [heq]
          exact hu
        · exfalso
          have hmem2 : ({ file := c.path, report_month := c.report_month, error := e2 } :
              FailedEntry) ∈ (rawLoop hash ingest root (rawStep hash ingest root acc c) cs).failed :=
            rawLoop_failed_mono hash ingest root cs _ _ (by rw [heq]; simp)
          rw [hfe] at hmem2
          cases hmem2
        · rw [heq]
          have hset : rawUnchanged (alSet acc.files (keyOf c)
              { file_name := c.file_name, report_month := c.report_month,
                sha256 := hash c.content, parquet_path := rawOutputPath root c.report_month })
              (keyOf c) (hash c.content) c.report_month = true := by
            unfold rawUnchanged
            rw [alGet_alSet_self]
            simp
          exact hset
      · exact ih (rawStep hash ingest root acc d) hnodup.2 hfe c hc

/-- A loop in which every candidate tests unchanged only appends unchanged
entries: no transform runs, nothing is written, the state is untouched. -/
theorem rawLoop_all_unchanged (hash : String → String) (ingest : Candidate → Except String Nat)
    (root : String) (cs : List Candidate) (acc : RawAcc)
    (hall : ∀ c ∈ cs, rawUnchanged acc.files (keyOf c) (hash c.content) c.report_month = true) :
    rawLoop hash ingest root acc cs =
      { acc with
        unchanged := acc.unchanged ++
          cs.map (fun c => { file := c.path, report_month := c.report_month }) } := by
  induction cs generalizing acc with
  | nil =>
      rw [List.map_nil, List.append_nil]
      rfl
  | cons c cs ih =>
      rw [rawLoop_cons]
      have hu : rawUnchanged acc.files (keyOf c) (hash c.content) c.report_month = true :=
        hall c (by simp)
      have hstep : rawStep hash ingest root acc c =
          { acc with unchanged := acc.unchanged ++
              [{ file := c.path, report_month := c.report_month }] } := by
        rcases rawStep_cases hash ingest root acc c with
          ⟨hu2, heq⟩ | ⟨hu2, e2, he, heq⟩ | ⟨hu2, rows, he, heq⟩
        · exact heq
        · have hu3 : rawUnchanged acc.files (keyOf c) (hash c.content)
              c.report_month = false := hu2
          rw [hu] at hu3
          cases hu3
        · have hu3 : rawUnchanged acc.files (keyOf c) (hash c.content)
              c.report_month = false := hu2
          rw [hu] at hu3
          cases hu3
      rw [hstep]
      rw [ih { acc with
               unchanged := acc.unchanged ++
                 [{ file := c.path, report_month := c.report_month }] }
        (fun c2 h2 => hall c2 (by simp [h2]))]
      rw [List.map_cons]
      congr 1
      rw [List.append_assoc]
      rfl

theorem curatedUnchanged_of_lookup (months : List (String × MonthRecord))
    (fsExists : String → Bool) (m checksum : String) (prev : MonthRecord)
    (hget : alGet months m = some prev) (hsha : (prev.raw_sha256 == checksum) = true)
    (hfs : fsExists prev.curated_parquet_path = true) :
    curatedUnchanged months fsExists m checksum = true := by
  simp only [curatedUnchanged, hget, hsha, hfs, Bool.and_true]

theorem curatedUnchanged_elim (months : List (String × MonthRecord))
    (fsExists : String → Bool) (m checksum : String)
    (h : curatedUnchanged months fsExists m checksum = true) :
    ∃ prev, alGet months m = some prev ∧ (prev.raw_sha256 == checksum) = true ∧
      fsExists prev.curated_parquet_path = true := by
  cases halg : alGet months m with
  | none =>
      simp only [curatedUnchanged, halg] at h
      exact Bool.noConfusion h
  | some prev =>
      simp only [curatedUnchanged, halg, Bool.and_eq_true] at h
      exact ⟨prev, rfl, h.1, h.2⟩

/-- After a curated run whose failed list is empty, every considered month's
state entry matches its current raw fingerprint, and its recorded curated
output is live in any filesystem that keeps what existed before plus what the
run wrote. -/
theorem curatedLoop_establishes (hash : String → String) (build : RawParquet → Except String Nat)
    (root : String) (fs1 fs2 : String → Bool)
    (hmono : ∀ p, fs1 p = true → fs2 p = true)
    (pairs : List (String × RawParquet)) (acc : CuratedAcc)
    (hnodup : (pairs.map Prod.fst).Nodup)
    (hfe : (curatedLoop hash build root fs1 acc pairs).failed = [])
    (hwr : ∀ p, p ∈ (curatedLoop hash build root fs1 acc pairs).written → fs2 p = true) :
    ∀ mp ∈ pairs, curatedUnchanged (curatedLoop hash build root fs1 acc pairs).months fs2
      mp.1 (hash mp.2.content) = true := by
  induction pairs generalizing acc with
  | nil =>
      intro mp hmp
      cases hmp
  | cons dp pairs ih =>
      rw [List.map_cons, List.nodup_cons] at hnodup
      intro mp hmp
      rw [curatedLoop_cons] at hfe hwr ⊢
      rcases List.mem_cons.1 hmp with rfl | hmp
      · have hkeys2 : ∀ mp2 ∈ pairs, mp2.1 ≠ mp.1 := by
          intro mp2 h2 heq2
          exact hnodup.1 (heq2 ▸ List.mem_map.2 ⟨mp2, h2, rfl⟩)
        have hpres := curatedLoop_months_preserve hash build root fs1 pairs
          (curatedStep hash build root fs1 acc mp) mp.1 hkeys2
        rcases curatedStep_cases hash build root fs1 acc mp with
          ⟨hu, heq⟩ | ⟨hu, e2, he, heq⟩ | ⟨hu, rows, he, heq⟩
        · rcases curatedUnchanged_elim _ _ _ _ hu with ⟨prev, hget, hsha, hfs⟩
          refine curatedUnchanged_of_lookup _ _ _ _ prev ?_ hsha (hmono _ hfs)
          rw [hpres, heq]
          exact hget
        · exfalso
          have hmem2 :
              ({ report_month := mp.1, raw_parquet_path := mp.2.path root,
                 error := e2 } : CuratedFailedEntry) ∈
              (curatedLoop hash build root fs1 (curatedStep hash build root fs1 acc mp)
                pairs).failed :=
            curatedLoop_failed_mono hash build root fs1 pairs _ _ (by rw [heq]; simp)
          rw [hfe] at hmem2
          cases hmem2
        · refine curatedUnchanged_of_lookup _ _ _ _
            { raw_parquet_path := mp.2.path root, raw_sha256 := hash mp.2.content,
              curated_parquet_path := curatedOutputPath root mp.1 } ?_ (by simp) ?_
          · rw [hpres, heq]
            exact alGet_alSet_self _ _ _
          · apply hwr
            apply curatedLoop_written_mono
            rw [heq]
            simp
      · exact ih (curatedStep hash build root fs1 acc dp) hnodup.2 hfe hwr mp hmp

theorem curatedLoop_all_unchanged (hash : String → String)
    (build : RawParquet → Except String Nat) (root : String) (fsExists : String → Bool)
    (pairs : List (String × RawParquet)) (acc : CuratedAcc)
    (hall : ∀ mp ∈ pairs,
      curatedUnchanged acc.months fsExists mp.1 (hash mp.2.content) = true) :
    curatedLoop hash build root fsExists acc pairs =
      { acc with
        unchanged := acc.unchanged ++
          pairs.map (fun mp => { file := mp.2.path root, report_month := mp.1 }) } := by
  induction pairs generalizing acc with
  | nil =>
      rw [List.map_nil, List.append_nil]
      rfl
  | cons mp pairs ih =>
      rw [curatedLoop_cons]
      have hu : curatedUnchanged acc.months fsExists mp.1 (hash mp.2.content) = true :=
        hall mp (by simp)
      have hstep : curatedStep hash build root fsExists acc mp =
          { acc with unchanged := acc.unchanged ++
              [{ file := mp.2.path root, report_month := mp.1 }] } := by
        rcases curatedStep_cases hash build root fsExists acc mp with
          ⟨hu2, heq⟩ | ⟨hu2, e2, he, heq⟩ | ⟨hu2, rows, he, heq⟩
        · exact heq
        · rw [hu] at hu2
          cases hu2
        · rw [hu] at hu2
          cases hu2
      rw [hstep]
      rw [ih { acc with
               unchanged := acc.unchanged ++
                 [{ file := mp.2.path root, report_month := mp.1 }] }
        (fun mp2 h2 => hall mp2 (by simp [h2]))]
      rw [List.map_cons]
      congr 1
      rw [List.append_assoc]
      rfl

theorem curatedDiscover_keys_nodup (root : String) (parts : List RawParquet) :
    (((discover_raw_partitions root parts).1).map Prod.fst).Nodup := by
  unfold discover_raw_partitions
  refine foldl_invariant (curatedDiscoverStep root) (fun a => (a.1.map Prod.fst).Nodup)
    _ ([], []) (by simp) ?_
  intro a rp _ ih
  rcases curatedDiscoverStep_cases root a rp with
    ⟨e, _, heq⟩ | ⟨month, _, _, heq⟩ | ⟨month, cur, _, _, _, heq⟩ |
      ⟨month, cur, _, _, _, heq⟩ <;> rw [heq]
  · exact ih
  · exact alSet_keys_nodup _ _ _ ih
  · exact alSet_keys_nodup _ _ _ ih
  · exact ih

theorem filterMapping_keys_nodup (mapping : List (String × RawParquet))
    (sel : Option (List String)) (h : (mapping.map Prod.fst).Nodup) :
    ((filterMapping mapping sel).map Prod.fst).Nodup := by
  cases sel with
  | none => exact h
  | some months =>
      exact List.Nodup.sublist (List.Sublist.map _ (List.filter_sublist _)) h

theorem insertSorted_perm {α : Type} (le : α → α → Bool) (a : α) (l : List α) :
    List.Perm (insertSorted le a l) (a :: l) := by
  induction l with
  | nil => exact List.Perm.refl _
  | cons b l ih =>
      unfold insertSorted
      by_cases h : le a b = true
      · rw [if_pos h]
      · rw [if_neg h]
        exact List.Perm.trans (List.Perm.cons b ih) (List.Perm.swap a b l)

theorem sortBy_perm {α : Type} (le : α → α → Bool) (l : List α) :
    List.Perm (sortBy le l) l := by
  induction l with
  | nil => exact List.Perm.refl _
  | cons a l ih =>
      unfold sortBy
      exact List.Perm.trans (insertSorted_perm le a (sortBy le l)) (List.Perm.cons a ih)

theorem sortedPairs_months_eq (mapping : List (String × RawParquet)) :
    (sortedPairs mapping).map Prod.fst =
      (sortBy strLe (mapping.map Prod.fst)).filter (fun m => (alGet mapping m).isSome) := by
  unfold sortedPairs
  generalize sortBy strLe (mapping.map Prod.fst) = l
  induction l with
  | nil => rfl
  | cons m l ih =>
      rw [List.filterMap_cons, List.filter_cons]
      cases halg : alGet mapping m with
      | none => simpa [halg] using ih
      | some rp => simp [halg, ih]

theorem sortedPairs_months_nodup (mapping : List (String × RawParquet))
    (h : (mapping.map Prod.fst).Nodup) : ((sortedPairs mapping).map Prod.fst).Nodup := by
  rw [sortedPairs_months_eq]
  exact List.Nodup.filter _ ((sortBy_perm strLe (mapping.map Prod.fst)).nodup_iff.2 h)

/-- C4 (amended): re-running the pipeline immediately after a fully
successful run, with the same source files, the same discovered raw
partitions, the same partition-key filter `sel` passed to the curated build,
and a filesystem that still holds everything the first run saw or wrote,
processes zero partitions: every discovered partition of each stage is
classified unchanged, nothing is written, and the state is bit-for-bit the
state of the first run.  The equal-filter hypothesis is essential: the
chained `--build-curated` pipeline recomputes the filter from the months the
raw stage just processed (`None` when that set is empty,
ingest_all_months.py:263), so its second run widens the curated scope to all
discovered raw partitions and rebuilds any discovered month the first run's
filter had excluded — see the counterexample. -/
theorem claim4_second_run_idempotent (hash : String → String)
    (ingest : Candidate → Except String Nat) (build : RawParquet → Except String Nat)
    (root : String) (files0 : List (String × FileRecord))
    (months0 : List (String × MonthRecord)) (files : List SrcFile)
    (parts : List RawParquet) (sel : Option (List String)) (fs1 : String → Bool)
    (hkeys : (((discover_input_files files).1).map keyOf).Nodup)
    (hr1 : (rawRun hash ingest root files0 files).1.failed = [])
    (hc1 : (run_curated_build hash build root fs1 months0 sel parts).1.failed = []) :
    ((rawRun hash ingest root (rawRun hash ingest root files0 files).1.files files).1.processed =
        [] ∧
      (rawRun hash ingest root (rawRun hash ingest root files0 files).1.files files).1.failed =
        [] ∧
      (rawRun hash ingest root (rawRun hash ingest root files0 files).1.files files).1.written =
        [] ∧
      (rawRun hash ingest root (rawRun hash ingest root files0 files).1.files files).1.files =
        (rawRun hash ingest root files0 files).1.files ∧
      (rawRun hash ingest root (rawRun hash ingest root files0 files).1.files files).1.unchanged =
        (discover_input_files files).1.map
          (fun c => { file := c.path, report_month := c.report_month })) ∧
    ((run_curated_build hash build root
        (fun p => fs1 p ||
          (run_curated_build hash build root fs1 months0 sel parts).1.written.contains p)
        (run_curated_build hash build root fs1 months0 sel parts).1.months
        sel parts).1.processed = [] ∧
      (run_curated_build hash build root
        (fun p => fs1 p ||
          (run_curated_build hash build root fs1 months0 sel parts).1.written.contains p)
        (run_curated_build hash build root fs1 months0 sel parts).1.months
        sel parts).1.failed = [] ∧
      (run_curated_build hash build root
        (fun p => fs1 p ||
          (run_curated_build hash build root fs1 months0 sel parts).1.written.contains p)
        (run_curated_build hash build root fs1 months0 sel parts).1.months
        sel parts).1.written = [] ∧
      (run_curated_build hash build root
        (fun p => fs1 p ||
          (run_curated_build hash build root fs1 months0 sel parts).1.written.contains p)
        (run_curated_build hash build root fs1 months0 sel parts).1.months
        sel parts).1.months =
        (run_curated_build hash build root fs1 months0 sel parts).1.months ∧
      (run_curated_build hash build root
        (fun p => fs1 p ||
          (run_curated_build hash build root fs1 months0 sel parts).1.written.contains p)
        (run_curated_build hash build root fs1 months0 sel parts).1.months
        sel parts).1.unchanged =
        (sortedPairs (filterMapping (discover_raw_partitions root parts).1 sel)).map
          (fun mp => { file := mp.2.path root, report_month := mp.1 })) := by
  have hEst := rawLoop_establishes hash ingest root (discover_input_files files).1
    { files := files0, processed := [], unchanged := [], failed := [], written := [] }
    hkeys hr1
  have hAll2 : ∀ c ∈ (discover_input_files files).1,
      rawUnchanged
        ({ files := (rawRun hash ingest root files0 files).1.files,
           processed := [], unchanged := [], failed := [],
           written := [] } : RawAcc).files (keyOf c) (hash c.content) c.report_month = true :=
    hEst
  have hNoop := rawLoop_all_unchanged hash ingest root (discover_input_files files).1
    { files := (rawRun hash ingest root files0 files).1.files, processed := [],
      unchanged := [], failed := [], written := [] } hAll2
  have hR2 : (rawRun hash ingest root (rawRun hash ingest root files0 files).1.files
      files).1 =
      { files := (rawRun hash ingest root files0 files).1.files, processed := [],
        unchanged := (discover_input_files files).1.map
          (fun c => { file := c.path, report_month := c.report_month }),
        failed := [], written := [] } := hNoop
  have hnodupP := sortedPairs_months_nodup
    (filterMapping (discover_raw_partitions root parts).1 sel)
    (filterMapping_keys_nodup _ sel (curatedDiscover_keys_nodup root parts))
  have hmono : ∀ p, fs1 p = true →
      (fun p => fs1 p ||
        (run_curated_build hash build root fs1 months0 sel parts).1.written.contains p) p =
      true := by
    intro p h
    show (fs1 p || _) = true
    rw [h]
    rfl
  have hwr : ∀ p, p ∈ (curatedLoop hash build root fs1
      { months := months0, processed := [], unchanged := [], failed := [], written := [] }
      (sortedPairs (filterMapping (discover_raw_partitions root parts).1 sel))).written →
      (fun p => fs1 p ||
        (run_curated_build hash build root fs1 months0 sel parts).1.written.contains p) p =
      true := by
    intro p hp
    have hc : ((run_curated_build hash build root fs1 months0 sel
        parts).1.written.contains p) = true := List.elem_eq_true_of_mem hp
    show (fs1 p || _) = true
    rw [hc, Bool.or_true]
  have hCEst := curatedLoop_establishes hash build root fs1
    (fun p => fs1 p ||
      (run_curated_build hash build root fs1 months0 sel parts).1.written.contains p)
    hmono (sortedPairs (filterMapping (discover_raw_partitions root parts).1 sel))
    { months := months0, processed := [], unchanged := [], failed := [], written := [] }
    hnodupP hc1 hwr
  have hCAll2 : ∀ mp ∈ sortedPairs (filterMapping (discover_raw_partitions root parts).1 sel),
      curatedUnchanged
        ({ months := (run_curated_build hash build root fs1 months0 sel parts).1.months,
           processed := [], unchanged := [], failed := [],
           written := [] } : CuratedAcc).months
        (fun p => fs1 p ||
          (run_curated_build hash build root fs1 months0 sel parts).1.written.contains p)
        mp.1 (hash mp.2.content) = true := hCEst
  have hCNoop := curatedLoop_all_unchanged hash build root
    (fun p => fs1 p ||
      (run_curated_build hash build root fs1 months0 sel parts).1.written.contains p)
    (sortedPairs (filterMapping (discover_raw_partitions root parts).1 sel))
    { months := (run_curated_build hash build root fs1 months0 sel parts).1.months,
      processed := [], unchanged := [], failed := [], written := [] } hCAll2
  have hC2 : (run_curated_build hash build root
      (fun p => fs1 p ||
        (run_curated_build hash build root fs1 months0 sel parts).1.written.contains p)
      (run_curated_build hash build root fs1 months0 sel parts).1.months sel parts).1 =
      { months := (run_curated_build hash build root fs1 months0 sel parts).1.months,
        processed := [],
        unchanged := (sortedPairs (filterMapping (discover_raw_partitions root parts).1
            sel)).map (fun mp => { file := mp.2.path root, report_month := mp.1 }),
        failed := [], written := [] } := hCNoop
  exact ⟨⟨by rw [hR2], by rw [hR2], by rw [hR2], by rw [hR2], by rw [hR2]⟩,
    ⟨by rw [hC2], by rw [hC2], by rw [hC2], by rw [hC2], by rw [hC2]⟩⟩

/-- C4 witness: two source months and one raw partition; after the fully
successful first runs, the second runs classify everything unchanged and
write nothing. -/
theorem claim4_witness :
    ((rawRun (fun s => "H" ++ s) (fun _ => .ok 5) "out"
        (rawRun (fun s => "H" ++ s) (fun _ => .ok 5) "out" []
          [{ name := "a_2024-01.xlsx", mtime := 1, content := "A" },
           { name := "b_2024-02.xlsx", mtime := 2, content := "B" }]).1.files
        [{ name := "a_2024-01.xlsx", mtime := 1, content := "A" },
         { name := "b_2024-02.xlsx", mtime := 2, content := "B" }]).1.processed = [] ∧
      (rawRun (fun s => "H" ++ s) (fun _ => .ok 5) "out"
        (rawRun (fun s => "H" ++ s) (fun _ => .ok 5) "out" []
          [{ name := "a_2024-01.xlsx", mtime := 1, content := "A" },
           { name := "b_2024-02.xlsx", mtime := 2, content := "B" }]).1.files
        [{ name := "a_2024-01.xlsx", mtime := 1, content := "A" },
         { name := "b_2024-02.xlsx", mtime := 2, content := "B" }]).1.failed = [] ∧
      (rawRun (fun s => "H" ++ s) (fun _ => .ok 5) "out"
        (rawRun (fun s => "H" ++ s) (fun _ => .ok 5) "out" []
          [{ name := "a_2024-01.xlsx", mtime := 1, content := "A" },
           { name := "b_2024-02.xlsx", mtime := 2, content := "B" }]).1.files
        [{ name := "a_2024-01.xlsx", mtime := 1, content := "A" },
         { name := "b_2024-02.xlsx", mtime := 2, content := "B" }]).1.written = [] ∧
      (rawRun (fun s => "H" ++ s) (fun _ => .ok 5) "out"
        (rawRun (fun s => "H" ++ s) (fun _ => .ok 5) "out" []
          [{ name := "a_2024-01.xlsx", mtime := 1, content := "A" },
           { name := "b_2024-02.xlsx", mtime := 2, content := "B" }]).1.files
        [{ name := "a_2024-01.xlsx", mtime := 1, content := "A" },
         { name := "b_2024-02.xlsx", mtime := 2, content := "B" }]).1.files =
        (rawRun (fun s => "H" ++ s) (fun _ => .ok 5) "out" []
          [{ name := "a_2024-01.xlsx", mtime := 1, content := "A" },
           { name := "b_2024-02.xlsx", mtime := 2, content := "B" }]).1.files ∧
      (rawRun (fun s => "H" ++ s) (fun _ => .ok 5) "out"
        (rawRun (fun s => "H" ++ s) (fun _ => .ok 5) "out" []
          [{ name := "a_2024-01.xlsx", mtime := 1, content := "A" },
           { name := "b_2024-02.xlsx", mtime := 2, content := "B" }]).1.files
        [{ name := "a_2024-01.xlsx", mtime := 1, content := "A" },
         { name := "b_2024-02.xlsx", mtime := 2, content := "B" }]).1.unchanged =
        (discover_input_files
          [{ name := "a_2024-01.xlsx", mtime := 1, content := "A" },
           { name := "b_2024-02.xlsx", mtime := 2, content := "B" }]).1.map
          (fun c => { file := c.path, report_month := c.report_month })) ∧
    ((run_curated_build (fun s => "H" ++ s) (fun _ => .ok 3) "out"
        (fun p => (fun _ => false) p ||
          (run_curated_build (fun s => "H" ++ s) (fun _ => .ok 3) "out" (fun _ => false) []
            none [{ dir_name := "report_month_2024-01", mtime := 0,
                    content := "R" }]).1.written.contains p)
        (run_curated_build (fun s => "H" ++ s) (fun _ => .ok 3) "out" (fun _ => false) []
          none [{ dir_name := "report_month_2024-01", mtime := 0, content := "R" }]).1.months
        none
        [{ dir_name := "report_month_2024-01", mtime := 0, content := "R" }]).1.processed =
        [] ∧
      (run_curated_build (fun s => "H" ++ s) (fun _ => .ok 3) "out"
        (fun p => (fun _ => false) p ||
          (run_curated_build (fun s => "H" ++ s) (fun _ => .ok 3) "out" (fun _ => false) []
            none [{ dir_name := "report_month_2024-01", mtime := 0,
                    content := "R" }]).1.written.contains p)
        (run_curated_build (fun s => "H" ++ s) (fun _ => .ok 3) "out" (fun _ => false) []
          none [{ dir_name := "report_month_2024-01", mtime := 0, content := "R" }]).1.months
        none
        [{ dir_name := "report_month_2024-01", mtime := 0, content := "R" }]).1.failed = [] ∧
      (run_curated_build (fun s => "H" ++ s) (fun _ => .ok 3) "out"
        (fun p => (fun _ => false) p ||
          (run_curated_build (fun s => "H" ++ s) (fun _ => .ok 3) "out" (fun _ => false) []
            none [{ dir_name := "report_month_2024-01", mtime := 0,
                    content := "R" }]).1.written.contains p)
        (run_curated_build (fun s => "H" ++ s) (fun _ => .ok 3) "out" (fun _ => false) []
          none [{ dir_name := "report_month_2024-01", mtime := 0, content := "R" }]).1.months
        none
        [{ dir_name := "report_month_2024-01", mtime := 0, content := "R" }]).1.written =
        [] ∧
      (run_curated_build (fun s => "H" ++ s) (fun _ => .ok 3) "out"
        (fun p => (fun _ => false) p ||
          (run_curated_build (fun s => "H" ++ s) (fun _ => .ok 3) "out" (fun _ => false) []
            none [{ dir_name := "report_month_2024-01", mtime := 0,
                    content := "R" }]).1.written.contains p)
        (run_curated_build (fun s => "H" ++ s) (fun _ => .ok 3) "out" (fun _ => false) []
          none [{ dir_name := "report_month_2024-01", mtime := 0, content := "R" }]).1.months
        none
        [{ dir_name := "report_month_2024-01", mtime := 0, content := "R" }]).1.months =
        (run_curated_build (fun s => "H" ++ s) (fun _ => .ok 3) "out" (fun _ => false) []
          none [{ dir_name := "report_month_2024-01", mtime := 0,
                  content := "R" }]).1.months ∧
      (run_curated_build (fun s => "H" ++ s) (fun _ => .ok 3) "out"
        (fun p => (fun _ => false) p ||
          (run_curated_build (fun s => "H" ++ s) (fun _ => .ok 3) "out" (fun _ => false) []
            none [{ dir_name := "report_month_2024-01", mtime := 0,
                    content := "R" }]).1.written.contains p)
        (run_curated_build (fun s => "H" ++ s) (fun _ => .ok 3) "out" (fun _ => false) []
          none [{ dir_name := "report_month_2024-01", mtime := 0, content := "R" }]).1.months
        none
        [{ dir_name := "report_month_2024-01", mtime := 0, content := "R" }]).1.unchanged =
        (sortedPairs (filterMapping (discover_raw_partitions "out"
            [{ dir_name := "report_month_2024-01", mtime := 0, content := "R" }]).1
          none)).map
          (fun mp => { file := mp.2.path "out", report_month := mp.1 })) :=
  claim4_second_run_idempotent (fun s => "H" ++ s) (fun _ => .ok 5) (fun _ => .ok 3)
    "out" [] []
    [{ name := "a_2024-01.xlsx", mtime := 1, content := "A" },
     { name := "b_2024-02.xlsx", mtime := 2, content := "B" }]
    [{ dir_name := "report_month_2024-01", mtime := 0, content := "R" }]
    none (fun _ => false) (by decide) (by decide) (by decide)

/-- C4 counterexample: a fully successful chained run (one source workbook
for month 2024-02, two discovered raw partitions 2024-01 and 2024-02) builds
only the curated month 2024-02, because the chained pipeline filters the
curated build to the months the raw stage just processed.  On the immediate
re-run with the same inputs, the preserved state, and a filesystem holding
everything the first run wrote, the raw stage processes nothing, so the
recomputed filter becomes `None` (ingest_all_months.py:263) and the curated
stage now considers — and rebuilds — the discovered month 2024-01 that has no
curated state record: the second run processes a partition, refuting the
zero-reprocessing claim for the chained pipeline. -/
theorem claim4_counterexample :
    (chainedRun (fun s => "H" ++ s) (fun _ => .ok 5) (fun _ => .ok 3) "out" (fun _ => false)
        [] [] [{ name := "b_2024-02.xlsx", mtime := 1, content := "B" }]
        [{ dir_name := "report_month_2024-01", mtime := 0, content := "R1" },
         { dir_name := "report_month_2024-02", mtime := 0, content := "R2" }]).1.failed = [] ∧
    (chainedRun (fun s => "H" ++ s) (fun _ => .ok 5) (fun _ => .ok 3) "out" (fun _ => false)
        [] [] [{ name := "b_2024-02.xlsx", mtime := 1, content := "B" }]
        [{ dir_name := "report_month_2024-01", mtime := 0, content := "R1" },
         { dir_name := "report_month_2024-02", mtime := 0, content := "R2" }]).2.1.failed =
      [] ∧
    (chainedRun (fun s => "H" ++ s) (fun _ => .ok 5) (fun _ => .ok 3) "out"
        (fun p =>
          (chainedRun (fun s => "H" ++ s) (fun _ => .ok 5) (fun _ => .ok 3) "out"
            (fun _ => false) [] []
            [{ name := "b_2024-02.xlsx", mtime := 1, content := "B" }]
            [{ dir_name := "report_month_2024-01", mtime := 0, content := "R1" },
             { dir_name := "report_month_2024-02", mtime := 0,
               content := "R2" }]).2.1.written.contains p)
        (chainedRun (fun s => "H" ++ s) (fun _ => .ok 5) (fun _ => .ok 3) "out"
          (fun _ => false) [] []
          [{ name := "b_2024-02.xlsx", mtime := 1, content := "B" }]
          [{ dir_name := "report_month_2024-01", mtime := 0, content := "R1" },
           { dir_name := "report_month_2024-02", mtime := 0, content := "R2" }]).1.files
        (chainedRun (fun s => "H" ++ s) (fun _ => .ok 5) (fun _ => .ok 3) "out"
          (fun _ => false) [] []
          [{ name := "b_2024-02.xlsx", mtime := 1, content := "B" }]
          [{ dir_name := "report_month_2024-01", mtime := 0, content := "R1" },
           { dir_name := "report_month_2024-02", mtime := 0, content := "R2" }]).2.1.months
        [{ name := "b_2024-02.xlsx", mtime := 1, content := "B" }]
        [{ dir_name := "report_month_2024-01", mtime := 0, content := "R1" },
         { dir_name := "report_month_2024-02", mtime := 0,
           content := "R2" }]).2.1.processed.map CuratedProcessedEntry.report_month =
      ["2024-01"] := by
  exact ⟨by decide, by decide, by decide⟩

/-! ## C1 — failure isolation of both stage loops and the exit policies -/

theorem curatedUnchanged_congr (m1 m2 : List (String × MonthRecord))
    (fsExists : String → Bool) (k checksum : String) (h : alGet m1 k = alGet m2 k) :
    curatedUnchanged m1 fsExists k checksum = curatedUnchanged m2 fsExists k checksum := by
  unfold curatedUnchanged
  rw [h]

theorem curatedStep_counts (hash : String → String) (build : RawParquet → Except String Nat)
    (root : String) (fsExists : String → Bool) (acc : CuratedAcc) (mp : String × RawParquet) :
    (curatedStep hash build root fsExists acc mp).processed.length +
      (curatedStep hash build root fsExists acc mp).unchanged.length +
      (curatedStep hash build root fsExists acc mp).failed.length =
    acc.processed.length + acc.unchanged.length + acc.failed.length + 1 := by
  rcases curatedStep_cases hash build root fsExists acc mp with
    ⟨_, heq⟩ | ⟨_, e2, _, heq⟩ | ⟨_, rows, _, heq⟩ <;> rw [heq] <;> simp <;> omega

theorem curatedLoop_counts (hash : String → String) (build : RawParquet → Except String Nat)
    (root : String) (fsExists : String → Bool) (pairs : List (String × RawParquet))
    (acc : CuratedAcc) :
    (curatedLoop hash build root fsExists acc pairs).processed.length +
      (curatedLoop hash build root fsExists acc pairs).unchanged.length +
      (curatedLoop hash build root fsExists acc pairs).failed.length =
    acc.processed.length + acc.unchanged.length + acc.failed.length + pairs.length := by
  induction pairs generalizing acc with
  | nil => simp [curatedLoop]
  | cons mp pairs ih =>
      rw [curatedLoop_cons, ih, curatedStep_counts]
      simp
      omega

theorem curatedLoop_failure_core (hash : String → String)
    (build : RawParquet → Except String Nat) (root : String) (fsExists : String → Bool)
    (mp : String × RawParquet) (e : String) (hfail : build mp.2 = .error e) :
    ∀ (pairs : List (String × RawParquet)) (acc : CuratedAcc), mp ∈ pairs →
      (pairs.map Prod.fst).Nodup →
      curatedUnchanged acc.months fsExists mp.1 (hash mp.2.content) = false →
      (({ report_month := mp.1, raw_parquet_path := mp.2.path root, error := e } :
          CuratedFailedEntry) ∈ (curatedLoop hash build root fsExists acc pairs).failed ∧
        alGet (curatedLoop hash build root fsExists acc pairs).months mp.1 =
          alGet acc.months mp.1) := by
  intro pairs
  induction pairs with
  | nil =>
      intro acc hc
      cases hc
  | cons dp pairs ih =>
      intro acc hc hnodup hns
      rw [List.map_cons, List.nodup_cons] at hnodup
      rcases List.mem_cons.1 hc with rfl | hc
      · have hstep : curatedStep hash build root fsExists acc mp =
            { acc with failed := acc.failed ++
                [{ report_month := mp.1, raw_parquet_path := mp.2.path root, error := e }] } := by
          rcases curatedStep_cases hash build root fsExists acc mp with
            ⟨hu, heq⟩ | ⟨hu, e2, he, heq⟩ | ⟨hu, rows, he, heq⟩
          · rw [hns] at hu
            cases hu
          · rw [hfail] at he
            injection he with he2
            rw [heq, he2]
          · rw [hfail] at he
            cases he
        have hkeys2 : ∀ mp2 ∈ pairs, mp2.1 ≠ mp.1 := by
          intro mp2 h2 heq2
          exact hnodup.1 (heq2 ▸ List.mem_map.2 ⟨mp2, h2, rfl⟩)
        rw [curatedLoop_cons, hstep]
        constructor
        · exact curatedLoop_failed_mono hash build root fsExists pairs _ _ (by simp)
        · rw [curatedLoop_months_preserve hash build root fsExists pairs _ _ hkeys2]
      · have hkd : dp.1 ≠ mp.1 := by
          intro he2
          exact hnodup.1 (he2 ▸ List.mem_map.2 ⟨mp, hc, rfl⟩)
        have hpres := curatedStep_months_preserve hash build root fsExists acc dp mp.1 hkd
        have hns2 : curatedUnchanged (curatedStep hash build root fsExists acc dp).months
            fsExists mp.1 (hash mp.2.content) = false := by
          rw [curatedUnchanged_congr _ acc.months _ _ _ hpres]
          exact hns
        rw [curatedLoop_cons]
        rcases ih (curatedStep hash build root fsExists acc dp) hc hnodup.2 hns2 with ⟨h1, h2⟩
        exact ⟨h1, by rw [h2, hpres]⟩

/-- C1 counterexample: a chained `--build-curated` run in which the raw stage
succeeds and `build_curated_table` raises for the one curated month: the
failure is caught into the curated failed list, `run_curated_build` returns
normally, `post_steps["build_curated"]["error"]` stays `None`, and the exit
test at the end of `ingest_all_months.main` — which reads only the raw failed
list and the post-step errors — exits 0 despite the non-empty curated failed
list, contradicting the claim's non-zero-exit clause. -/
theorem claim1_counterexample :
    (chainedRun (fun s => "H" ++ s) (fun _ => .ok 7) (fun _ => .error "cboom") "out"
        (fun _ => false) [] []
        [{ name := "a_2024-01.xlsx", mtime := 1, content := "A" }]
        [{ dir_name := "report_month_2024-01", mtime := 0, content := "R" }]).2.1.failed.map
      CuratedFailedEntry.error = ["cboom"] ∧
    (chainedRun (fun s => "H" ++ s) (fun _ => .ok 7) (fun _ => .error "cboom") "out"
        (fun _ => false) [] []
        [{ name := "a_2024-01.xlsx", mtime := 1, content := "A" }]
        [{ dir_name := "report_month_2024-01", mtime := 0, content := "R" }]).2.2 = 0 := by
  exact ⟨by decide, by decide⟩

/-- C1 (amended): when the transform of either stage (`ingest_workbook`,
`build_curated_table`) raises for a considered partition, that stage's
orchestrator catches it, records the partition in its failed list with the
string representation of the exception, leaves the partition's in-memory
state entry untouched, and still gives every considered partition exactly one
terminal classification; the ingest process exits non-zero whenever its own
failed list is non-empty, and the standalone curated-build process exits
non-zero whenever its failed list is non-empty — but a chained
`--build-curated` run whose raw failed list is empty exits 0 even when the
curated failed list is not, because `run_curated_build` returns normally and
the exit test reads only the raw failed list and the post-step errors. -/
theorem claim1_partial_failure_isolation (hash : String → String)
    (ingest : Candidate → Except String Nat) (build : RawParquet → Except String Nat)
    (root : String) (fsExists : String → Bool)
    (files0 : List (String × FileRecord)) (months0 : List (String × MonthRecord))
    (files : List SrcFile) (parts : List RawParquet) (sel : Option (List String))
    (c : Candidate) (e : String) (mp : String × RawParquet) (e2 : String)
    (hmem : c ∈ (discover_input_files files).1)
    (hkeys : (((discover_input_files files).1).map keyOf).Nodup)
    (hfail : ingest c = .error e)
    (hfresh : rawUnchanged files0 (keyOf c) (hash c.content) c.report_month = false)
    (hmem2 : mp ∈ sortedPairs (filterMapping (discover_raw_partitions root parts).1 sel))
    (hfail2 : build mp.2 = .error e2)
    (hfresh2 : curatedUnchanged months0 fsExists mp.1 (hash mp.2.content) = false) :
    ({ file := c.path, report_month := c.report_month, error := e } : FailedEntry) ∈
      (rawRun hash ingest root files0 files).1.failed ∧
    alGet (rawRun hash ingest root files0 files).1.files (keyOf c) = alGet files0 (keyOf c) ∧
    (rawRun hash ingest root files0 files).1.processed.length +
        (rawRun hash ingest root files0 files).1.unchanged.length +
        (rawRun hash ingest root files0 files).1.failed.length =
      (discover_input_files files).1.length ∧
    (∀ postFailed, rawExitCode (rawRun hash ingest root files0 files).1.failed postFailed = 1) ∧
    ({ report_month := mp.1, raw_parquet_path := mp.2.path root, error := e2 } :
        CuratedFailedEntry) ∈
      (run_curated_build hash build root fsExists months0 sel parts).1.failed ∧
    alGet (run_curated_build hash build root fsExists months0 sel parts).1.months mp.1 =
      alGet months0 mp.1 ∧
    (run_curated_build hash build root fsExists months0 sel parts).1.processed.length +
        (run_curated_build hash build root fsExists months0 sel parts).1.unchanged.length +
        (run_curated_build hash build root fsExists months0 sel parts).1.failed.length =
      (sortedPairs (filterMapping (discover_raw_partitions root parts).1 sel)).length ∧
    curatedExitCode (run_curated_build hash build root fsExists months0 sel parts).1.failed =
      1 ∧
    (∀ (files2 : List SrcFile) (parts2 : List RawParquet) (fsE2 : String → Bool)
        (files02 : List (String × FileRecord)) (months02 : List (String × MonthRecord)),
      (rawRun hash ingest root files02 files2).1.failed = [] →
      (chainedRun hash ingest build root fsE2 files02 months02 files2 parts2).2.2 = 0) := by
  have hcore := rawLoop_failure_core hash ingest root c e hfail
    (discover_input_files files).1
    { files := files0, processed := [], unchanged := [], failed := [], written := [] }
    hmem hkeys hfresh
  have hrun : (rawRun hash ingest root files0 files).1 =
      rawLoop hash ingest root
        { files := files0, processed := [], unchanged := [], failed := [], written := [] }
        (discover_input_files files).1 := rfl
  have hnodupP := sortedPairs_months_nodup
    (filterMapping (discover_raw_partitions root parts).1 sel)
    (filterMapping_keys_nodup _ sel (curatedDiscover_keys_nodup root parts))
  have hccore := curatedLoop_failure_core hash build root fsExists mp e2 hfail2
    (sortedPairs (filterMapping (discover_raw_partitions root parts).1 sel))
    { months := months0, processed := [], unchanged := [], failed := [], written := [] }
    hmem2 hnodupP hfresh2
  have hcrun : (run_curated_build hash build root fsExists months0 sel parts).1 =
      curatedLoop hash build root fsExists
        { months := months0, processed := [], unchanged := [], failed := [], written := [] }
        (sortedPairs (filterMapping (discover_raw_partitions root parts).1 sel)) := rfl
  rw [hrun, hcrun]
  refine ⟨hcore.1, hcore.2, ?_, ?_, hccore.1, hccore.2, ?_, ?_, ?_⟩
  · have := rawLoop_counts hash ingest root (discover_input_files files).1
      { files := files0, processed := [], unchanged := [], failed := [], written := [] }
    simpa using this
  · intro postFailed
    unfold rawExitCode
    rw [mem_ne_nil _ _ hcore.1]
    rfl
  · have := curatedLoop_counts hash build root fsExists
      (sortedPairs (filterMapping (discover_raw_partitions root parts).1 sel))
      { months := months0, processed := [], unchanged := [], failed := [], written := [] }
    simpa using this
  · unfold curatedExitCode
    rw [if_pos (List.length_pos_of_mem hccore.1)]
  · intro files2 parts2 fsE2 files02 months02 hre
    show rawExitCode (rawRun hash ingest root files02 files2).1.failed false = 0
    rw [hre]
    rfl

/-- C1 (amended), witness: three raw months with the transform failing for
`2024-02`, and one curated month whose build fails with `cboom`: both failures
are caught and recorded, both state entries stay absent, all partitions are
classified, both standalone exit codes are 1, and any chained run with an
all-clear raw stage exits 0. -/
theorem claim1_witness :
    ({ file := "b_2024-02.xlsx", report_month := "2024-02", error := "boom" } : FailedEntry) ∈
      (rawRun (fun s => "H" ++ s)
        (fun c => if c.report_month == "2024-02" then .error "boom" else .ok 7) "out" []
        [{ name := "a_2024-01.xlsx", mtime := 1, content := "A" },
         { name := "b_2024-02.xlsx", mtime := 2, content := "B" },
         { name := "c_2024-03.xlsx", mtime := 3, content := "C" }]).1.failed ∧
    alGet (rawRun (fun s => "H" ++ s)
        (fun c => if c.report_month == "2024-02" then .error "boom" else .ok 7) "out" []
        [{ name := "a_2024-01.xlsx", mtime := 1, content := "A" },
         { name := "b_2024-02.xlsx", mtime := 2, content := "B" },
         { name := "c_2024-03.xlsx", mtime := 3, content := "C" }]).1.files
      (keyOf { path := "b_2024-02.xlsx", file_name := "b_2024-02.xlsx",
               report_month := "2024-02", mtime := 2, content := "B" }) =
      alGet []
        (keyOf { path := "b_2024-02.xlsx", file_name := "b_2024-02.xlsx",
                 report_month := "2024-02", mtime := 2, content := "B" }) ∧
    (rawRun (fun s => "H" ++ s)
        (fun c => if c.report_month == "2024-02" then .error "boom" else .ok 7) "out" []
        [{ name := "a_2024-01.xlsx", mtime := 1, content := "A" },
         { name := "b_2024-02.xlsx", mtime := 2, content := "B" },
         { name := "c_2024-03.xlsx", mtime := 3, content := "C" }]).1.processed.length +
      (rawRun (fun s => "H" ++ s)
        (fun c => if c.report_month == "2024-02" then .error "boom" else .ok 7) "out" []
        [{ name := "a_2024-01.xlsx", mtime := 1, content := "A" },
         { name := "b_2024-02.xlsx", mtime := 2, content := "B" },
         { name := "c_2024-03.xlsx", mtime := 3, content := "C" }]).1.unchanged.length +
      (rawRun (fun s => "H" ++ s)
        (fun c => if c.report_month == "2024-02" then .error "boom" else .ok 7) "out" []
        [{ name := "a_2024-01.xlsx", mtime := 1, content := "A" },
         { name := "b_2024-02.xlsx", mtime := 2, content := "B" },
         { name := "c_2024-03.xlsx", mtime := 3, content := "C" }]).1.failed.length =
      (discover_input_files
        [{ name := "a_2024-01.xlsx", mtime := 1, content := "A" },
         { name := "b_2024-02.xlsx", mtime := 2, content := "B" },
         { name := "c_2024-03.xlsx", mtime := 3, content := "C" }]).1.length ∧
    (∀ postFailed, rawExitCode
      (rawRun (fun s => "H" ++ s)
        (fun c => if c.report_month == "2024-02" then .error "boom" else .ok 7) "out" []
        [{ name := "a_2024-01.xlsx", mtime := 1, content := "A" },
         { name := "b_2024-02.xlsx", mtime := 2, content := "B" },
         { name := "c_2024-03.xlsx", mtime := 3, content := "C" }]).1.failed postFailed = 1) ∧
    ({ report_month := "2024-01",
       raw_parquet_path :=
         ({ dir_name := "report_month_2024-01", mtime := 0, content := "R" } : RawParquet).path
           "out",
       error := "cboom" } : CuratedFailedEntry) ∈
      (run_curated_build (fun s => "H" ++ s) (fun _ => .error "cboom") "out" (fun _ => false)
        [] none
        [{ dir_name := "report_month_2024-01", mtime := 0, content := "R" }]).1.failed ∧
    alGet (run_curated_build (fun s => "H" ++ s) (fun _ => .error "cboom") "out"
        (fun _ => false) [] none
        [{ dir_name := "report_month_2024-01", mtime := 0, content := "R" }]).1.months
      "2024-01" = alGet [] "2024-01" ∧
    (run_curated_build (fun s => "H" ++ s) (fun _ => .error "cboom") "out" (fun _ => false)
        [] none
        [{ dir_name := "report_month_2024-01", mtime := 0, content := "R" }]).1.processed.length +
      (run_curated_build (fun s => "H" ++ s) (fun _ => .error "cboom") "out" (fun _ => false)
        [] none
        [{ dir_name := "report_month_2024-01", mtime := 0, content := "R" }]).1.unchanged.length +
      (run_curated_build (fun s => "H" ++ s) (fun _ => .error "cboom") "out" (fun _ => false)
        [] none
        [{ dir_name := "report_month_2024-01", mtime := 0, content := "R" }]).1.failed.length =
      (sortedPairs (filterMapping (discover_raw_partitions "out"
        [{ dir_name := "report_month_2024-01", mtime := 0, content := "R" }]).1 none)).length ∧
    curatedExitCode (run_curated_build (fun s => "H" ++ s) (fun _ => .error "cboom") "out"
        (fun _ => false) [] none
        [{ dir_name := "report_month_2024-01", mtime := 0, content := "R" }]).1.failed = 1 ∧
    (∀ (files2 : List SrcFile) (parts2 : List RawParquet) (fsE2 : String → Bool)
        (files02 : List (String × FileRecord)) (months02 : List (String × MonthRecord)),
      (rawRun (fun s => "H" ++ s)
        (fun c => if c.report_month == "2024-02" then .error "boom" else .ok 7) "out"
        files02 files2).1.failed = [] →
      (chainedRun (fun s => "H" ++ s)
        (fun c => if c.report_month == "2024-02" then .error "boom" else .ok 7)
        (fun _ => .error "cboom") "out" fsE2 files02 months02 files2 parts2).2.2 = 0) :=
  claim1_partial_failure_isolation (fun s => "H" ++ s)
    (fun c => if c.report_month == "2024-02" then .error "boom" else .ok 7)
    (fun _ => .error "cboom") "out" (fun _ => false) [] []
    [{ name := "a_2024-01.xlsx", mtime := 1, content := "A" },
     { name := "b_2024-02.xlsx", mtime := 2, content := "B" },
     { name := "c_2024-03.xlsx", mtime := 3, content := "C" }]
    [{ dir_name := "report_month_2024-01", mtime := 0, content := "R" }]
    none
    { path := "b_2024-02.xlsx", file_name := "b_2024-02.xlsx",
      report_month := "2024-02", mtime := 2, content := "B" }
    "boom"
    ("2024-01", { dir_name := "report_month_2024-01", mtime := 0, content := "R" })
    "cboom"
    (by decide) (by decide) rfl (by decide) (by decide) rfl rfl

end Winjo
